import Mathlib

/-!
Verification of the asn1ate code generator (pyasn1 back end, parser,
indentation-aware sink, and driver) against its natural-language
specification.  Python source files are shallowly embedded as pure Lean
functions; stateful writers become explicit state passing, fallible code
returns `Except`, and the few semantic-module services whose source file is
not part of the repository snapshot are modelled from the specification (each
such definition is marked `Modelled from the spec:` in its doc comment).
-/

deriving instance DecidableEq for Except

namespace Asn1ate

@[simp] lemma exceptOkBind {ε α β : Type} (a : α) (f : α → Except ε β) :
    (Except.ok a >>= f) = f a := rfl

@[simp] lemma exceptErrorBind {ε α β : Type} (e : ε) (f : α → Except ε β) :
    ((Except.error e : Except ε α) >>= f) = Except.error e := rfl

lemma stringExt {a b : String} (h : a.data = b.data) : a = b := by
  cases a
  cases b
  exact congrArg String.mk h

/-! ## Embedding of `asn1ate/support/pygen.py` — the indentation-aware sink

`PythonWriter` wraps an output stream; we represent the stream as the string
written so far (`out`).  `PythonFragment` is a `PythonWriter` over a private
buffer, so the same state type serves for both; `str(fragment)` is `out`.
-/

structure PythonWriter where
  out : String
  indent_size : Int
  current_indent : Int
  deriving Repr, DecidableEq

/-- Fresh buffering fragment, as `PythonFragment(indent_size=4)`. -/
def PythonWriter.fragment : PythonWriter :=
  { out := "", indent_size := 4, current_indent := 0 }

def PythonWriter.push_indent (w : PythonWriter) : PythonWriter :=
  { w with current_indent := w.current_indent + w.indent_size }

def PythonWriter.pop_indent (w : PythonWriter) : PythonWriter :=
  { w with current_indent := w.current_indent - w.indent_size }

/-- Python `' ' * current_indent + line`; Python string repetition with a negative
count yields the empty string, matching `Int.toNat`. -/
def PythonWriter.indentLine (w : PythonWriter) (line : String) : String :=
  String.mk (List.replicate w.current_indent.toNat ' ') ++ line

/-- The `write_line`.  `None` is modelled as `none`; the Python truthiness test
`if line else line` leaves the empty string unindented. -/
def PythonWriter.write_line (w : PythonWriter) (line : Option String) : PythonWriter :=
  match line with
  | none => w
  | some l =>
    let l' := if l ≠ "" then w.indentLine l else l
    { w with out := w.out ++ l' ++ "\n" }

/-- The `write_blanks(count)` writes `count` newlines. -/
def PythonWriter.write_blanks (w : PythonWriter) (count : Nat) : PythonWriter :=
  { w with out := w.out ++ String.mk (List.replicate count '\n') }

/-- Python `'\\n'.join` / `','.join`: join with a separator. -/
def joinWith (sep : String) : List String → String
  | [] => ""
  | s :: rest => rest.foldl (fun acc x => acc ++ sep ++ x) s

/-- Python `str.split` on a single character: empty parts are kept, and the
empty string yields one empty part. -/
def splitOnChar (c : Char) : List Char → List (List Char)
  | [] => [[]]
  | x :: xs =>
    match splitOnChar c xs with
    | [] => [[]]
    | grp :: rest => if x = c then [] :: grp :: rest else (x :: grp) :: rest

/-- Python `str.rstrip()`: drop trailing whitespace. -/
def rstrip (s : String) : String :=
  String.mk (s.data.reverse.dropWhile Char.isWhitespace).reverse

/-- Python `str.strip()`: drop leading and trailing whitespace. -/
def pstrip (s : String) : String :=
  String.mk ((s.data.dropWhile Char.isWhitespace).reverse.dropWhile Char.isWhitespace).reverse

/-- The `write_block`: rstrip, then re-emit every line through `write_line`. -/
def PythonWriter.write_block (w : PythonWriter) (block : String) : PythonWriter :=
  ((splitOnChar '\n' (rstrip block).data).map String.mk).foldl
    (fun acc line => acc.write_line (some line)) w

/-- The `write_enumeration(items)`: `write_block(',\n'.join(items))`. -/
def PythonWriter.write_enumeration (w : PythonWriter) (items : List String) : PythonWriter :=
  w.write_block (joinWith ",\n" items)

/-! ## Embedding of the translation tables and helpers of `asn1ate/pyasn1gen.py` -/

/-- Python 3 `keyword.kwlist`. -/
def python_keywords : List String :=
  ["False", "None", "True", "and", "as", "assert", "async", "await",
   "break", "class", "continue", "def", "del", "elif", "else", "except",
   "finally", "for", "from", "global", "if", "import", "in", "is",
   "lambda", "nonlocal", "not", "or", "pass", "raise", "return", "try",
   "while", "with", "yield"]

/-- The `_sanitize_identifier`: hyphens to underscores, then a trailing
underscore exactly for Python keywords. -/
def _sanitize_identifier (name : String) : String :=
  let name := String.mk (name.data.map (fun c => if c = '-' then '_' else c))
  if name ∈ python_keywords then name ++ "_" else name

/-- The `_sanitize_module`: sanitize, then lower-case. -/
def _sanitize_module (name : String) : String :=
  String.mk ((_sanitize_identifier name).data.map Char.toLower)

/-- The `_ASN1_TAG_CONTEXTS` as an association list. -/
def _ASN1_TAG_CONTEXTS : List (String × String) :=
  [("APPLICATION", "tag.tagClassApplication"),
   ("PRIVATE", "tag.tagClassPrivate"),
   ("UNIVERSAL", "tag.tagClassUniversal")]

/-- The `_ASN1_BUILTIN_VALUES`. -/
def _ASN1_BUILTIN_VALUES : List (String × String) :=
  [("FALSE", "0"), ("TRUE", "1")]

/-- The `_ASN1_BUILTIN_TYPES`. -/
def _ASN1_BUILTIN_TYPES : List (String × String) :=
  [("ANY", "univ.Any"),
   ("INTEGER", "univ.Integer"),
   ("BOOLEAN", "univ.Boolean"),
   ("NULL", "univ.Null"),
   ("ENUMERATED", "univ.Enumerated"),
   ("REAL", "univ.Real"),
   ("BIT STRING", "univ.BitString"),
   ("OCTET STRING", "univ.OctetString"),
   ("CHOICE", "univ.Choice"),
   ("SEQUENCE", "univ.Sequence"),
   ("SET", "univ.Set"),
   ("SEQUENCE OF", "univ.SequenceOf"),
   ("SET OF", "univ.SetOf"),
   ("OBJECT IDENTIFIER", "univ.ObjectIdentifier"),
   ("UTF8String", "char.UTF8String"),
   ("GeneralString", "char.GeneralString"),
   ("NumericString", "char.NumericString"),
   ("PrintableString", "char.PrintableString"),
   ("IA5String", "char.IA5String"),
   ("GraphicString", "char.GraphicString"),
   ("GeneralizedTime", "useful.GeneralizedTime"),
   ("UTCTime", "useful.UTCTime"),
   ("ObjectDescriptor", "useful.ObjectDescriptor"),
   ("VisibleString", "char.VisibleString"),
   ("TeletexString", "char.TeletexString"),
   ("UniversalString", "char.UniversalString"),
   ("BMPString", "char.BMPString"),
   ("T61String", "char.T61String"),
   ("VideotexString", "char.VideotexString")]

/-- Python `dict.get(key, default)` over an association list. -/
def dictGet (table : List (String × String)) (key default : String) : String :=
  match table.find? (fun kv => kv.1 = key) with
  | some kv => kv.2
  | none => default

/-- The `_translate_type`: sanitize, then look up among the pyasn1 builtins.
The dynamic `isinstance(type_name, str)` guard has no Lean counterpart:
the argument is a string by type. -/
def _translate_type (type_name : String) : String :=
  let type_name := _sanitize_identifier type_name
  dictGet _ASN1_BUILTIN_TYPES type_name type_name

/-- The `_translate_tag_class`: `dict.get` with default `tag.tagClassContext`.
The class name is `none` when the tag carried no class keyword. -/
def _translate_tag_class (tag_class : Option String) : String :=
  match tag_class with
  | some c => dictGet _ASN1_TAG_CONTEXTS c "tag.tagClassContext"
  | none => "tag.tagClassContext"

/-- The `_heuristic_is_identifier`: first character is neither `-` nor a digit.
The Python source indexes `str(value)[0]` and would raise `IndexError` on an
empty string; no parser-produced value is empty, and the empty case is
modelled as `false`. -/
def _heuristic_is_identifier (value : String) : Bool :=
  match value.data with
  | [] => false
  | c :: _ => c ≠ '-' && !c.isDigit

/-! ## The semantic model (`asn1ate/sema.py` node shapes)

`sema.py` itself is not part of the source snapshot; the node shapes below
are reconstructed from §3.2 of the spec and from the attribute accesses in
`pyasn1gen.py`.  Tag implicitness follows §3.2: a tag is `IMPLICIT`,
`EXPLICIT` or `DEFAULT`, and a module's `tag_default` may also be
`AUTOMATIC`. -/

inductive TagImplicitness where
  | default
  | implicit
  | explicit
  | automatic
  deriving Repr, DecidableEq

inductive Constraint where
  | singleValueConstraint (value : String)
  | valueRangeConstraint (min_value max_value : String)
  | sizeConstraint (nested : Constraint)
  deriving Repr, DecidableEq

/-- An object-identifier value component (§3.2 `ValueNode`). -/
inductive OidComponent where
  | nameForm (name : String)
  | numberForm (value : String)
  | nameAndNumberForm (name : String) (number : String)
  deriving Repr, DecidableEq

/-- A value node (§3.2); literal numbers and character strings are carried
as their source text, as the parser produces them. -/
inductive Value where
  | referencedValue (module_ref : Option String) (name : String)
  | litValue (text : String)
  | binaryStringValue (value : String)
  | hexStringValue (value : String)
  | objectIdentifierValue (components : List OidComponent)
  deriving Repr, DecidableEq

/-- A named value or named bit entry of a `ValueListType` / `BitStringType`
component list; the `...` marker may appear among named values. -/
inductive NamedValueEntry where
  | namedValue (identifier : String) (value : String)
  | extensionMarker
  deriving Repr, DecidableEq

/-- Semantic type nodes, including the component-level nodes
(`ComponentType`, `NamedType`, `ExtensionMarker`) that the back end's
`inline_generators` table dispatches on. -/
inductive SemaType where
  | simpleType (type_name : String) (constraint : Option Constraint)
  | definedType (module_ref : Option String) (type_name : String)
  | valueListType (type_name : String) (named_values : List NamedValueEntry)
      (constraint : Option Constraint)
  | bitStringType (type_name : String) (named_bits : List NamedValueEntry)
      (constraint : Option Constraint)
  | choiceType (type_name : String) (components : List SemaType)
  | sequenceType (type_name : String) (components : List SemaType)
  | setType (type_name : String) (components : List SemaType)
  | sequenceOfType (type_decl : SemaType) (size_constraint : Option Constraint)
  | setOfType (type_decl : SemaType) (size_constraint : Option Constraint)
  | taggedType (class_name : Option String) (class_number : String)
      (implicitness : TagImplicitness) (type_decl : SemaType)
  | selectionType (identifier : String) (type_decl : SemaType)
  | componentType (components_of_type : Option SemaType) (identifier : String)
      (optional : Bool) (default_value : Option Value) (type_decl : SemaType)
  | namedType (identifier : String) (type_decl : SemaType)
  | extensionMarker

/-- A top-level assignment, or any other object handed to the back end
(`otherNode` stands for a Python object of any further class, carrying the
class name the back end's error message would show). -/
inductive SemaNode where
  | typeAssignment (type_name : String) (type_decl : SemaType)
  | valueAssignment (value_name : String) (type_decl : SemaType) (value : Value)
  | otherNode (class_name : String)

/-- Modelled from the spec: the `type_name` attribute of sema type nodes
(`sema.py` is absent from the snapshot).  Simple, defined, value-list,
bit-string and constructed nodes store their name; collection nodes answer
the builtin-table keys `SEQUENCE OF` / `SET OF`; a tagged type delegates to
the type it tags.  Component-level nodes have no such attribute — reading it
is a Python `AttributeError`. -/
def SemaType.type_name : SemaType → Except String String
  | .simpleType n _ => .ok n
  | .definedType _ n => .ok n
  | .valueListType n _ _ => .ok n
  | .bitStringType n _ _ => .ok n
  | .choiceType n _ => .ok n
  | .sequenceType n _ => .ok n
  | .setType n _ => .ok n
  | .sequenceOfType _ _ => .ok "SEQUENCE OF"
  | .setOfType _ _ => .ok "SET OF"
  | .taggedType _ _ _ inner => inner.type_name
  | .selectionType _ _ => .error "AttributeError: SelectionType has no type_name"
  | .componentType _ _ _ _ _ => .error "AttributeError: ComponentType has no type_name"
  | .namedType _ _ => .error "AttributeError: NamedType has no type_name"
  | .extensionMarker => .error "AttributeError: ExtensionMarker has no type_name"

/-- The `isinstance(t, ConstructedType)` — §3.2: the constructed family is
SEQUENCE, SET and CHOICE. -/
def SemaType.isConstructedType : SemaType → Bool
  | .choiceType _ _ | .sequenceType _ _ | .setType _ _ => true
  | _ => false

/-- Whether a resolved type is a CHOICE or an open (ANY) type (§4.4). -/
def SemaType.isOpenType : SemaType → Bool
  | .choiceType _ _ => true
  | .simpleType n _ => n = "ANY"
  | _ => false

def SemaType.isExtensionMarker : SemaType → Bool
  | .extensionMarker => true
  | _ => false

/-- The name-resolution services of the semantic module (§4.4), passed to
the back end as `self.sema_module`.  Their implementations live in the
absent `sema.py`; the back end only calls them. -/
structure SemaServices where
  module_name : String
  tag_default : TagImplicitness
  resolve_type_decl : SemaType → Except String SemaType
  resolve_selection_type : SemaType → Except String (Option SemaType)

/-- Modelled from the spec (§4.4 `resolve_tag_implicitness`, `sema.py`
absent): a `DEFAULT` implicitness takes the module's `tag_default`; if the
result would be `IMPLICIT` but the inner type resolves to a CHOICE or
another open type, the effective implicitness becomes `EXPLICIT`. -/
def resolve_tag_implicitness (tag_default : TagImplicitness)
    (implicitness : TagImplicitness) (resolved_inner : SemaType) : TagImplicitness :=
  let r := match implicitness with
    | .default => tag_default
    | other => other
  if r = .implicit ∧ resolved_inner.isOpenType then .explicit else r

/-- The back end's call `self.sema_module.resolve_tag_implicitness(...)`:
resolve the inner type, then apply the rule above. -/
def SemaServices.tagImplicitnessOf (svc : SemaServices)
    (implicitness : TagImplicitness) (type_decl : SemaType) :
    Except String TagImplicitness := do
  let resolved ← svc.resolve_type_decl type_decl
  .ok (resolve_tag_implicitness svc.tag_default implicitness resolved)

/-- Rendering of a `TagImplicitness` in error messages (`'%s' % implicitness`). -/
def TagImplicitness.text : TagImplicitness → String
  | .default => "TagImplicitness.DEFAULT"
  | .implicit => "TagImplicitness.IMPLICIT"
  | .explicit => "TagImplicitness.EXPLICIT"
  | .automatic => "TagImplicitness.AUTOMATIC"

/-- Modelled from the spec: the `components` attribute of a constructed
sema node (`sema.py` absent); other nodes have no such attribute. -/
def SemaType.components : SemaType → Except String (List SemaType)
  | .choiceType _ cs => .ok cs
  | .sequenceType _ cs => .ok cs
  | .setType _ cs => .ok cs
  | _ => .error "AttributeError: no components attribute"

/-- Modelled from the spec (§4.5): `REGISTERED_OID_NAMES`, the registry of
standard arc names, lives in the absent `sema.py`; the spec names `iso` and
`joint-iso-itu-t` among its entries. -/
def REGISTERED_OID_NAMES : List (String × String) :=
  [("itu-t", "0"), ("ccitt", "0"), ("iso", "1"),
   ("joint-iso-itu-t", "2"), ("joint-iso-ccitt", "2")]

/-! ## Embedding of the `Pyasn1Backend` emission methods -/

/-- The `('%s', %s)` pair text of the named-value list comprehensions in
`defn_value_list_type` / `inline_value_list_type` (markers are skipped by
their `isinstance` filter). -/
def namedValuePairText : NamedValueEntry → Option String
  | .namedValue i val => some ("('" ++ i ++ "', " ++ val ++ ")")
  | .extensionMarker => none

/-- The named-bit list comprehension of `defn_bitstring_type`: *no* marker
filter — `b.identifier` on an `ExtensionMarker` raises `AttributeError`. -/
def bitPairTexts : List NamedValueEntry → Except String (List String)
  | [] => .ok []
  | b :: rest =>
    match b with
    | .namedValue i val => do
      let r ← bitPairTexts rest
      .ok (("('" ++ i ++ "', " ++ val ++ ")") :: r)
    | .extensionMarker => .error "AttributeError: ExtensionMarker has no identifier"

/-- The `translate_value` on a plain string (its `elif`/`else` branches); the
Python method dispatches dynamically on its argument. -/
def translate_value_str (s : String) : String :=
  let v := if _heuristic_is_identifier s then _sanitize_identifier s else s
  dictGet _ASN1_BUILTIN_VALUES v v

/-- The `translate_value` on a value node.  Binary/hex/OID value nodes reach the
`else: v = value` branch, where Python stringifies the node through the
`__str__` defined in the absent `sema.py`; that case is modelled as an
error (no back-end caller passes those nodes here). -/
def translate_value (svc : SemaServices) : Value → Except String String
  | .referencedValue module_ref name =>
    let v := _sanitize_identifier name
    let v := match module_ref with
      | some m => if m ≠ svc.module_name then _sanitize_module m ++ "." ++ v else v
      | none => v
    .ok (dictGet _ASN1_BUILTIN_VALUES v v)
  | .litValue s => .ok (translate_value_str s)
  | _ => .error "str() of this value node is defined in the absent sema.py"

/-- The `build_constraint_expr`.  In the `SizeConstraint` branch the source
translates the already-translated bounds a second time, which is preserved
here. -/
def build_constraint_expr : Constraint → Except String String
  | .singleValueConstraint v =>
    .ok ("constraint.SingleValueConstraint(" ++ translate_value_str v ++ ")")
  | .sizeConstraint nested => do
    let bounds ← match nested with
      | .singleValueConstraint v =>
        Except.ok (translate_value_str v, translate_value_str v)
      | .valueRangeConstraint mn mx =>
        Except.ok (translate_value_str mn, translate_value_str mx)
      | _ => Except.error "Unrecognized nested size constraint type: SizeConstraint"
    .ok ("constraint.ValueSizeConstraint(" ++ translate_value_str bounds.1 ++ ", "
         ++ translate_value_str bounds.2 ++ ")")
  | .valueRangeConstraint mn mx =>
    .ok ("constraint.ValueRangeConstraint(" ++ translate_value_str mn ++ ", "
         ++ translate_value_str mx ++ ")")

/-- The `build_object_identifier_value` over the value's component list. -/
def build_object_identifier_value (components : List OidComponent) :
    Except String String := do
  let objid_components ← components.mapM (fun c =>
    match c with
    | .nameForm name =>
      match (REGISTERED_OID_NAMES.find? (fun kv => kv.1 = name)) with
      | some kv => Except.ok kv.2
      | none => Except.ok (translate_value_str name)
    | .numberForm v => Except.ok v
    | .nameAndNumberForm _ number => Except.ok number)
  .ok ("_OID(" ++ joinWith ", " objid_components ++ ")")

/-- The `build_tag_expr` on a `TaggedType` node. -/
def build_tag_expr (svc : SemaServices) (tag_def : SemaType) : Except String String :=
  match tag_def with
  | .taggedType tag_class class_number _ type_decl => do
    let context := _translate_tag_class tag_class
    let tagged_type_decl ← svc.resolve_type_decl type_decl
    let tag_format :=
      if tagged_type_decl.isConstructedType then "tag.tagFormatConstructed"
      else "tag.tagFormatSimple"
    .ok ("tag.Tag(" ++ context ++ ", " ++ tag_format ++ ", " ++ class_number ++ ")")
  | _ => .error "AttributeError: not a TaggedType"

/-- The `build_value_construct_expr`. -/
def build_value_construct_expr (svc : SemaServices) (type_decl : SemaType)
    (value : Value) : Except String String :=
  match value with
  | .objectIdentifierValue comps => build_object_identifier_value comps
  | _ => do
    let tn ← type_decl.type_name
    let value_type := _translate_type tn
    let root_type ← svc.resolve_type_decl type_decl
    let rtn ← root_type.type_name
    let inner ← match value with
      | .binaryStringValue v =>
        Except.ok (if rtn = "OCTET STRING" then "binValue='" ++ v ++ "'"
                   else "\"'" ++ v ++ "'B\"")
      | .hexStringValue v =>
        Except.ok (if rtn = "OCTET STRING" then "hexValue='" ++ v ++ "'"
                   else "\"'" ++ v ++ "'H\"")
      | v => translate_value svc v
    .ok (value_type ++ "(" ++ inner ++ ")")

/-- The `isinstance(type_decl, SelectionType)` pre-resolution step of
`decl_type_assignment`; resolving to `None` makes the subsequent attribute
access fail. -/
def resolveForDecl (svc : SemaServices) (type_decl : SemaType) : Except String SemaType :=
  match type_decl with
  | .selectionType ident inner =>
    (match svc.resolve_selection_type (.selectionType ident inner) with
     | .error msg => .error msg
     | .ok (some resolved) => .ok resolved
     | .ok none => .error "AttributeError: NoneType has no type_name")
  | other => .ok other

/-- The `decl_type_assignment`: emit the empty-bodied class declaration. -/
def decl_type_assignment (svc : SemaServices) (assigned_name : String)
    (type_decl : SemaType) : Except String String := do
  let fragment := PythonWriter.fragment
  let type_decl ← resolveForDecl svc type_decl
  let assigned_type := _translate_type assigned_name
  let tn ← type_decl.type_name
  let base_type := _translate_type tn
  let fragment := fragment.write_line (some ("class " ++ assigned_type ++ "(" ++ base_type ++ "):"))
  let fragment := fragment.push_indent
  let fragment := fragment.write_line (some "pass")
  let fragment := fragment.pop_indent
  .ok fragment.out

/-- The `decl_value_assignment`: `name = construct-expression`. -/
def decl_value_assignment (svc : SemaServices) (value_name : String)
    (type_decl : SemaType) (value : Value) : Except String String := do
  let assigned_value := _sanitize_identifier value_name
  let construct_expr ← build_value_construct_expr svc type_decl value
  .ok (assigned_value ++ " = " ++ construct_expr)

/-- The `generate_decl`: the `decl_generators` dispatch; any other class is a
`KeyError` on the dictionary lookup. -/
def generate_decl (svc : SemaServices) : SemaNode → Except String String
  | .typeAssignment n td => decl_type_assignment svc n td
  | .valueAssignment n td v => decl_value_assignment svc n td v
  | .otherNode cls => .error ("KeyError: no decl generator for " ++ cls)

/-- The `defn_simple_type`. -/
def defn_simple_type (class_name : String) (t : SemaType) :
    Except String (Option String) :=
  match t with
  | .simpleType _ constraint =>
    match constraint with
    | some c => do
      let ce ← build_constraint_expr c
      .ok (some (class_name ++ ".subtypeSpec = " ++ ce))
    | none => .ok none
  | _ => .error "AttributeError: not a SimpleType"

/-- The `defn_value_list_type`: named values are filtered for extension markers
before being written as `('name', value)` pairs. -/
def defn_value_list_type (class_name : String) (t : SemaType) :
    Except String String :=
  match t with
  | .valueListType _ named_values constraint => do
    let fragment := PythonWriter.fragment
    let fragment ←
      if named_values.isEmpty then pure fragment
      else do
        let fragment := fragment.write_line
          (some (class_name ++ ".namedValues = namedval.NamedValues("))
        let fragment := fragment.push_indent
        let named_values := named_values.filterMap namedValuePairText
        let fragment := fragment.write_enumeration named_values
        let fragment := fragment.pop_indent
        pure (fragment.write_line (some ")"))
    let fragment ← match constraint with
      | some c => do
        let ce ← build_constraint_expr c
        pure (fragment.write_line (some (class_name ++ ".subtypeSpec=" ++ ce)))
      | none => pure fragment
    .ok fragment.out
  | _ => .error "AttributeError: not a ValueListType"

/-- The `defn_bitstring_type`: the source iterates over *all* named bits with no
extension-marker filter; `b.identifier` on a marker is an `AttributeError`. -/
def defn_bitstring_type (class_name : String) (t : SemaType) :
    Except String String :=
  match t with
  | .bitStringType _ named_bits constraint => do
    let fragment := PythonWriter.fragment
    let fragment ←
      if named_bits.isEmpty then pure fragment
      else do
        let fragment := fragment.write_line
          (some (class_name ++ ".namedValues = namedval.NamedValues("))
        let fragment := fragment.push_indent
        let named_bits ← bitPairTexts named_bits
        let fragment := fragment.write_enumeration named_bits
        let fragment := fragment.pop_indent
        pure (fragment.write_line (some ")"))
    let fragment ← match constraint with
      | some c => do
        let ce ← build_constraint_expr c
        pure (fragment.write_line (some (class_name ++ ".subtypeSpec=" ++ ce)))
      | none => pure fragment
    .ok fragment.out
  | _ => .error "AttributeError: not a BitStringType"

/-- The `inline_simple_type`, over the `type_name` / `constraint` attributes it
reads (`inline_bitstring_type` funnels bit-string nodes through it too). -/
def inline_simple_type (tn : String) (constraint : Option Constraint) :
    Except String String := do
  let type_expr := _translate_type tn ++ "()"
  match constraint with
  | some c => do
    let ce ← build_constraint_expr c
    .ok (type_expr ++ ".subtype(subtypeSpec=" ++ ce ++ ")")
  | none => .ok type_expr

/-- The string a fragment holds after `write_enumeration items` — the body
shared by `inline_component_types`. -/
def render_enumeration (items : List String) : String :=
  (PythonWriter.fragment.write_enumeration items).out

/-- The fragment body of `inline_constructed_type` after the component
expressions are in hand. -/
def renderInlineConstructed (tn : String) (component_exprs : List String) : String :=
  let fragment := PythonWriter.fragment
  let class_name := _translate_type tn
  let fragment := fragment.write_line (some (class_name ++ "(componentType=namedtype.NamedTypes("))
  let fragment := fragment.push_indent
  let fragment := fragment.write_block (render_enumeration component_exprs)
  let fragment := fragment.pop_indent
  let fragment := fragment.write_line (some "))")
  fragment.out

/-- Intermediate result of the inline generators: a single expression
(`generate_expr`) or the expression list an `inline_component_types` loop
has accumulated. -/
inductive GenRes where
  | one (s : String)
  | many (l : List String)
  deriving Repr, DecidableEq

def GenRes.asOne : GenRes → Except String String
  | .one s => .ok s
  | .many _ => .error "internal: expected a single expression"

def GenRes.asMany : GenRes → Except String (List String)
  | .many l => .ok l
  | .one _ => .error "internal: expected an expression list"

/-- The mutually recursive inline generators (`generate_expr` dispatching
through `inline_generators`, and the component loop of
`inline_component_types`), combined into one function.  Recursion in the
Python source is unbounded; the `fuel` argument bounds the recursion depth
explicitly and decreases at every recursive call, including the two calls
that re-enter through resolver results (`COMPONENTS OF` expansion and
selection types), which is where the Python could genuinely diverge. -/
def genExprAux (svc : SemaServices) : Nat → (SemaType ⊕ List SemaType) → Except String GenRes
  | 0, _ => .error "RecursionError: maximum recursion depth exceeded"
  | _fuel+1, .inr [] => .ok (.many [])
  | fuel+1, .inr (c :: cs) => do
    -- the loop of `inline_component_types`: skip extension markers,
    -- generate an expression for every other component, in order
    if c.isExtensionMarker then
      genExprAux svc fuel (.inr cs)
    else do
      let e ← (← genExprAux svc fuel (.inl c)).asOne
      let rest ← (← genExprAux svc fuel (.inr cs)).asMany
      .ok (.many (e :: rest))
  | fuel+1, .inl t =>
    match t with
    | .taggedType tag_class tag_number implicitness type_decl => do
      -- inline_tagged_type
      let impl ← svc.tagImplicitnessOf implicitness type_decl
      let tag_implicitness ← match impl with
        | .implicit => Except.ok "implicitTag"
        | .explicit => Except.ok "explicitTag"
        | other => Except.error ("Unexpected implicitness: " ++ other.text)
      let type_expr ← (← genExprAux svc fuel (.inl type_decl)).asOne
      let tag_expr ← build_tag_expr svc (.taggedType tag_class tag_number implicitness type_decl)
      .ok (.one (type_expr ++ ".subtype(" ++ tag_implicitness ++ "=" ++ tag_expr ++ ")"))
    | .selectionType ident type_decl => do
      -- inline_selection_type
      let selected ← svc.resolve_selection_type (.selectionType ident type_decl)
      match selected with
      | none => .error ("Found no member " ++ ident ++ " in the referenced type")
      | some s => genExprAux svc fuel (.inl s)
    | .simpleType tn constraint => do
      -- inline_simple_type
      .ok (.one (← inline_simple_type tn constraint))
    | .definedType module_ref tn =>
      -- inline_defined_type
      let translated_type := _translate_type tn ++ "()"
      let translated_type := match module_ref with
        | some m =>
          if m ≠ svc.module_name then _sanitize_module m ++ "." ++ translated_type
          else translated_type
        | none => translated_type
      .ok (.one translated_type)
    | .componentType components_of_type ident opt default_value type_decl =>
      -- inline_component_type
      match components_of_type with
      | some cot => do
        -- COMPONENTS OF works like a literal include: expand all
        -- components of the referenced type, then strip the rendering
        let included_type_decl ← svc.resolve_type_decl cot
        let comps ← included_type_decl.components
        let included_content ← (← genExprAux svc fuel (.inr comps)).asMany
        .ok (.one (pstrip (render_enumeration included_content)))
      | none =>
        if opt then do
          let e ← (← genExprAux svc fuel (.inl type_decl)).asOne
          .ok (.one ("namedtype.OptionalNamedType('" ++ ident ++ "', " ++ e ++ ")"))
        else match default_value with
          | some dv => do
            let type_expr ← (← genExprAux svc fuel (.inl type_decl)).asOne
            let tv ← translate_value svc dv
            let type_expr := type_expr ++ ".subtype(value=" ++ tv ++ ")"
            .ok (.one ("namedtype.DefaultedNamedType('" ++ ident ++ "', " ++ type_expr ++ ")"))
          | none => do
            let e ← (← genExprAux svc fuel (.inl type_decl)).asOne
            .ok (.one ("namedtype.NamedType('" ++ ident ++ "', " ++ e ++ ")"))
    | .namedType ident type_decl => do
      -- inline_named_type
      let e ← (← genExprAux svc fuel (.inl type_decl)).asOne
      .ok (.one ("namedtype.NamedType('" ++ ident ++ "', " ++ e ++ ")"))
    | .sequenceOfType inner size_constraint => do
      -- inline_sequenceof_type
      let e ← (← genExprAux svc fuel (.inl inner)).asOne
      let expr := "univ.SequenceOf(componentType=" ++ e ++ ")"
      let expr ← match size_constraint with
        | some c => do
          let ce ← build_constraint_expr c
          pure (expr ++ ".subtype(subtypeSpec=" ++ ce ++ ")")
        | none => pure expr
      .ok (.one expr)
    | .setOfType inner size_constraint => do
      -- inline_setof_type
      let e ← (← genExprAux svc fuel (.inl inner)).asOne
      let expr := "univ.SetOf(componentType=" ++ e ++ ")"
      let expr ← match size_constraint with
        | some c => do
          let ce ← build_constraint_expr c
          pure (expr ++ ".subtype(subtypeSpec=" ++ ce ++ ")")
        | none => pure expr
      .ok (.one expr)
    | .valueListType tn named_values _ =>
      -- inline_value_list_type
      let cname := _translate_type tn
      if named_values.isEmpty then .ok (.one (cname ++ "()"))
      else
        let nvs := named_values.filterMap namedValuePairText
        .ok (.one (cname ++ "(namedValues=namedval.NamedValues("
                   ++ joinWith ", " nvs ++ "))"))
    | .choiceType tn comps => do
      -- inline_constructed_type
      let es ← (← genExprAux svc fuel (.inr comps)).asMany
      .ok (.one (renderInlineConstructed tn es))
    | .sequenceType tn comps => do
      let es ← (← genExprAux svc fuel (.inr comps)).asMany
      .ok (.one (renderInlineConstructed tn es))
    | .setType tn comps => do
      let es ← (← genExprAux svc fuel (.inr comps)).asMany
      .ok (.one (renderInlineConstructed tn es))
    | .bitStringType tn _ constraint => do
      -- inline_bitstring_type
      .ok (.one (← inline_simple_type tn constraint))
    | .extensionMarker => .error "KeyError: no inline generator for ExtensionMarker"
termination_by structural fuel => fuel

/-- The `generate_expr`: the `inline_generators` dispatch. -/
def generate_expr (svc : SemaServices) (fuel : Nat) (t : SemaType) :
    Except String String := do
  (← genExprAux svc fuel (.inl t)).asOne

/-- The `inline_component_types`: generate expressions for the non-marker
components, in order, and render them as an enumeration fragment. -/
def inline_component_types (svc : SemaServices) (fuel : Nat)
    (components : List SemaType) : Except String String := do
  let component_exprs ← (← genExprAux svc fuel (.inr components)).asMany
  .ok (render_enumeration component_exprs)

/-- The `defn_constructed_type`. -/
def defnConstructed (svc : SemaServices) (fuel : Nat) (class_name : String)
    (t : SemaType) : Except String (Option String) := do
  let comps ← t.components
  let fragment := PythonWriter.fragment
  let fragment := fragment.write_line (some (class_name ++ ".componentType = namedtype.NamedTypes("))
  let fragment := fragment.push_indent
  let inner ← inline_component_types svc fuel comps
  let fragment := fragment.write_block inner
  let fragment := fragment.pop_indent
  let fragment := fragment.write_line (some ")")
  .ok (some fragment.out)

/-- The `generate_defn`: the `defn_generators` dispatch.  `SimpleType`,
`DefinedType` and `SelectionType` definitions may be `None`; component-level
nodes are not in the dispatch table (`KeyError`).  `defn_tagged_type`
recurses into the definition of the type it tags, so this function carries
the same explicit recursion fuel as the inline generators. -/
def generate_defn (svc : SemaServices) : Nat → String → SemaType → Except String (Option String)
  | 0, _, _ => .error "RecursionError: maximum recursion depth exceeded"
  | fuel+1, class_name, t =>
    match t with
    | .choiceType tn comps => defnConstructed svc fuel class_name (.choiceType tn comps)
    | .sequenceType tn comps => defnConstructed svc fuel class_name (.sequenceType tn comps)
    | .setType tn comps => defnConstructed svc fuel class_name (.setType tn comps)
    | .sequenceOfType inner size_constraint => do
      -- defn_collection_type
      let fragment := PythonWriter.fragment
      let e ← generate_expr svc fuel inner
      let fragment := fragment.write_line (some (class_name ++ ".componentType = " ++ e))
      let fragment ← match size_constraint with
        | some c => do
          let ce ← build_constraint_expr c
          pure (fragment.write_line (some (class_name ++ ".subtypeSpec=" ++ ce)))
        | none => pure fragment
      .ok (some fragment.out)
    | .setOfType inner size_constraint => do
      -- defn_collection_type
      let fragment := PythonWriter.fragment
      let e ← generate_expr svc fuel inner
      let fragment := fragment.write_line (some (class_name ++ ".componentType = " ++ e))
      let fragment ← match size_constraint with
        | some c => do
          let ce ← build_constraint_expr c
          pure (fragment.write_line (some (class_name ++ ".subtypeSpec=" ++ ce)))
        | none => pure fragment
      .ok (some fragment.out)
    | .taggedType tag_class tag_number implicitness type_decl => do
      -- defn_tagged_type
      let fragment := PythonWriter.fragment
      let impl ← svc.tagImplicitnessOf implicitness type_decl
      let tag_implicitness ← match impl with
        | .implicit => Except.ok "tagImplicitly"
        | .explicit => Except.ok "tagExplicitly"
        | other => Except.error ("Unexpected implicitness: " ++ other.text)
      let tn ← type_decl.type_name
      let base_type := _translate_type tn
      let tag_expr ← build_tag_expr svc (.taggedType tag_class tag_number implicitness type_decl)
      let fragment := fragment.write_line (some (class_name ++ ".tagSet = " ++ base_type
        ++ ".tagSet." ++ tag_implicitness ++ "(" ++ tag_expr ++ ")"))
      let nested_dfn ← generate_defn svc fuel class_name type_decl
      let fragment := match nested_dfn with
        | some sdfn => if sdfn ≠ "" then fragment.write_line (some sdfn) else fragment
        | none => fragment
      .ok (some fragment.out)
    | .selectionType _ _ => .ok none  -- defn_selection_type
    | .simpleType tn constraint => defn_simple_type class_name (.simpleType tn constraint)
    | .definedType _ _ => .ok none  -- defn_defined_type
    | .valueListType tn nvs c => do
      let sdefn ← defn_value_list_type class_name (.valueListType tn nvs c)
      .ok (some sdefn)
    | .bitStringType tn nbs c => do
      let sdefn ← defn_bitstring_type class_name (.bitStringType tn nbs c)
      .ok (some sdefn)
    | .componentType _ _ _ _ _ => .error "KeyError: no defn generator for ComponentType"
    | .namedType _ _ => .error "KeyError: no defn generator for NamedType"
    | .extensionMarker => .error "KeyError: no defn generator for ExtensionMarker"
termination_by structural fuel => fuel

/-- The `generate_definition` (lines 150–159): value assignments have no
definition; type assignments delegate to the definition generator for their
type; any other argument raises. -/
def generate_definition (svc : SemaServices) (fuel : Nat) : SemaNode → Except String (Option String)
  | .valueAssignment _ _ _ => .ok none
  | .typeAssignment assigned_type type_decl =>
    generate_defn svc fuel (_translate_type assigned_type) type_decl
  | .otherNode cls => .error ("Unexpected assignment type " ++ cls)

/-! ## The emission order of `generate_code` (lines 125–148)

The writes `generate_code` performs after the preamble are modelled as a
list of events.  A `declBlock`/`defnBlock` event records which component of
the dependency-sorted list and which assignment within it produced the
block, together with the block text; `blank` records a `write_blanks`. -/

inductive EmitEvent where
  | declBlock (comp : Nat) (idx : Nat) (text : String)
  | defnBlock (comp : Nat) (idx : Nat) (text : String)
  | blank (n : Nat)
  deriving Repr, DecidableEq

/-- The component index an event belongs to, if any. -/
def EmitEvent.comp? : EmitEvent → Option Nat
  | .declBlock c _ _ => some c
  | .defnBlock c _ _ => some c
  | .blank _ => none

def EmitEvent.isDefnOf (e : EmitEvent) (c : Nat) : Prop :=
  ∃ i s, e = .defnBlock c i s

def EmitEvent.isDeclOf (e : EmitEvent) (c : Nat) : Prop :=
  ∃ i s, e = .declBlock c i s

/-- The first pass of the per-component loop: a declaration block and two
blank lines for every assignment, in order. -/
def decl_events (svc : SemaServices) (ci : Nat) : Nat → List SemaNode → Except String (List EmitEvent)
  | _, [] => .ok []
  | ai, a :: rest =>
    match generate_decl svc a with
    | .error msg => .error msg
    | .ok d =>
      match decl_events svc ci (ai+1) rest with
      | .error msg => .error msg
      | .ok es => .ok (.declBlock ci ai d :: .blank 2 :: es)

/-- The second pass: a definition block (and two blank lines) for every
assignment whose `generate_definition` is truthy — neither `None` nor the
empty string. -/
def defn_events (svc : SemaServices) (fuel : Nat) (ci : Nat) : Nat → List SemaNode → Except String (List EmitEvent)
  | _, [] => .ok []
  | ai, a :: rest =>
    match generate_definition svc fuel a with
    | .error msg => .error msg
    | .ok details =>
      match defn_events svc fuel ci (ai+1) rest with
      | .error msg => .error msg
      | .ok es =>
        match details with
        | some sdfn =>
          if sdfn ≠ "" then .ok (.defnBlock ci ai sdfn :: .blank 2 :: es) else .ok es
        | none => .ok es

/-- The component loop of `generate_code`: for each component of the
dependency-sorted list, all declarations, then all definitions. -/
def components_events (svc : SemaServices) (fuel : Nat) : Nat → List (List SemaNode) → Except String (List EmitEvent)
  | _, [] => .ok []
  | ci, component :: rest =>
    match decl_events svc ci 0 component with
    | .error msg => .error msg
    | .ok ds =>
      match defn_events svc fuel ci 0 component with
      | .error msg => .error msg
      | .ok fs =>
        match components_events svc fuel (ci+1) rest with
        | .error msg => .error msg
        | .ok es => .ok (ds ++ fs ++ es)

/-- The body `generate_code` emits after the import header and optional
`_OID` helper, given the component list that `dependency_sort` (in the
absent `sema.py`) returned. -/
def generate_code_body (svc : SemaServices) (fuel : Nat)
    (assignment_components : List (List SemaNode)) : Except String (List EmitEvent) :=
  components_events svc fuel 0 assignment_components

/-! ## The dependency analyzer (§4.3)

Modelled from the spec: `dependency_sort` lives in the absent `sema.py`.
Per §4.3 it groups the assignments of a module into strongly connected
components of the reference graph and returns them in forward topological
order, leaves first.  Assignments are abstracted to graph nodes `0 .. n-1`
with a successor function `adj` (node `u` references the nodes `adj u`).
The components are computed from each node's reachable set: two nodes share
an SCC exactly when their reachable sets coincide, and ordering components
by the size of their reachable set (smallest first) puts leaves first. -/

/-- One closure step: add every direct successor of the set. -/
def setStep (adj : Nat → List Nat) (S : Finset Nat) : Finset Nat :=
  S ∪ S.biUnion (fun u => (adj u).toFinset)

/-- Iterates the closure step `k` times from `{a}`. -/
def reachIter (adj : Nat → List Nat) (a : Nat) : Nat → Finset Nat
  | 0 => {a}
  | k+1 => setStep adj (reachIter adj a k)

/-- The reachable set of `a` (the closure is reached after `n` steps on a
graph with `n` nodes); equal keys characterize a shared SCC. -/
def sccKey (n : Nat) (adj : Nat → List Nat) (a : Nat) : Finset Nat :=
  reachIter adj a n

/-- Insertion into a list sorted by `key`, stable. -/
def insertByKey (key : Nat → Nat) (x : Nat) : List Nat → List Nat
  | [] => [x]
  | y :: ys => if key x ≤ key y then x :: y :: ys else y :: insertByKey key x ys

/-- Insertion sort by `key`, ascending. -/
def sortByKey (key : Nat → Nat) : List Nat → List Nat
  | [] => []
  | x :: xs => insertByKey key x (sortByKey key xs)

/-- First-occurrence deduplication with an explicit seen accumulator. -/
def dedupKeysAux (seen : List (Finset Nat)) : List (Finset Nat) → List (Finset Nat)
  | [] => []
  | k :: ks =>
    if k ∈ seen then dedupKeysAux seen ks
    else k :: dedupKeysAux (k :: seen) ks

def dedupKeys (l : List (Finset Nat)) : List (Finset Nat) :=
  dedupKeysAux [] l

/-- Modelled from the spec (§4.3, `sema.py` absent): group the nodes into
SCCs (equal reachable sets) and return the components leaves-first: nodes
are sorted by the size of their reachable set, the distinct keys are kept in
that order, and each component collects the nodes with its key. -/
def sortedNodes (n : Nat) (adj : Nat → List Nat) : List Nat :=
  sortByKey (fun u => (sccKey n adj u).card) (List.range n)

def dependency_sort (n : Nat) (adj : Nat → List Nat) : List (List Nat) :=
  (dedupKeys ((sortedNodes n adj).map (sccKey n adj))).map
    (fun k => (sortedNodes n adj).filter (fun u => decide (sccKey n adj u = k)))

lemma subset_setStep (adj : Nat → List Nat) (S : Finset Nat) : S ⊆ setStep adj S :=
  Finset.subset_union_left

lemma setStep_mono (adj : Nat → List Nat) {S T : Finset Nat} (h : S ⊆ T) :
    setStep adj S ⊆ setStep adj T :=
  Finset.union_subset_union h (Finset.biUnion_subset_biUnion_of_subset_left _ h)

lemma reachIter_succ_supset (adj : Nat → List Nat) (a : Nat) (k : Nat) :
    reachIter adj a k ⊆ reachIter adj a (k+1) :=
  subset_setStep adj _

lemma reachIter_mono (adj : Nat → List Nat) (a : Nat) {k m : Nat} (h : k ≤ m) :
    reachIter adj a k ⊆ reachIter adj a m := by
  induction m with
  | zero => simpa [Nat.le_zero.mp h]
  | succ m ih =>
    rcases Nat.lt_or_ge k (m+1) with hk | hk
    · exact (ih (Nat.lt_succ_iff.mp hk)).trans (reachIter_succ_supset adj a m)
    · have : k = m + 1 := Nat.le_antisymm h hk
      simp [this]

lemma mem_reachIter_self (adj : Nat → List Nat) (a : Nat) (k : Nat) :
    a ∈ reachIter adj a k := by
  induction k with
  | zero => simp [reachIter]
  | succ k ih => exact reachIter_succ_supset adj a k ih

lemma reachIter_subset_range {n : Nat} {adj : Nat → List Nat} {a : Nat}
    (ha : a < n) (hadj : ∀ u v, v ∈ adj u → v < n) (k : Nat) :
    reachIter adj a k ⊆ Finset.range n := by
  induction k with
  | zero => simp [reachIter, Finset.singleton_subset_iff, ha]
  | succ k ih =>
    refine Finset.union_subset ih (Finset.biUnion_subset.mpr fun u _ => ?_)
    intro v hv
    rw [List.mem_toFinset] at hv
    exact Finset.mem_range.mpr (hadj u v hv)

lemma reachIter_fix_propagates {adj : Nat → List Nat} {a k : Nat}
    (h : reachIter adj a (k+1) = reachIter adj a k) (m : Nat) :
    reachIter adj a (k+m) = reachIter adj a k := by
  induction m with
  | zero => rfl
  | succ m ih =>
    have : reachIter adj a (k+m+1) = setStep adj (reachIter adj a (k+m)) := rfl
    rw [show k + (m+1) = (k+m)+1 by omega, this, ih]
    exact h

lemma exists_reachIter_fix {n : Nat} {adj : Nat → List Nat} {a : Nat}
    (ha : a < n) (hadj : ∀ u v, v ∈ adj u → v < n) :
    ∃ k, k < n ∧ reachIter adj a (k+1) = reachIter adj a k := by
  by_contra hcon
  push_neg at hcon
  have grow : ∀ k, k ≤ n → k + 1 ≤ (reachIter adj a k).card := by
    intro k
    induction k with
    | zero => intro _; simpa [reachIter] using Nat.le_refl 1
    | succ k ih =>
      intro hk
      have hklt : k < n := Nat.lt_of_succ_le hk
      have hssub : reachIter adj a k ⊂ reachIter adj a (k+1) :=
        Finset.ssubset_iff_subset_ne.mpr
          ⟨reachIter_succ_supset adj a k, fun he => hcon k hklt he.symm⟩
      have := Finset.card_lt_card hssub
      have := ih (Nat.le_of_lt hklt)
      omega
  have h1 : n + 1 ≤ (reachIter adj a n).card := grow n (Nat.le_refl n)
  have h2 : (reachIter adj a n).card ≤ n := by
    simpa using Finset.card_le_card (reachIter_subset_range ha hadj n)
  omega

lemma sccKey_step_closed {n : Nat} {adj : Nat → List Nat} {a : Nat}
    (ha : a < n) (hadj : ∀ u v, v ∈ adj u → v < n) :
    setStep adj (sccKey n adj a) = sccKey n adj a := by
  obtain ⟨k, hk, hfix⟩ := exists_reachIter_fix ha hadj
  have hn : reachIter adj a n = reachIter adj a k := by
    have := reachIter_fix_propagates hfix (n - k)
    rwa [show k + (n - k) = n by omega] at this
  have hn1 : reachIter adj a (n+1) = reachIter adj a k := by
    have := reachIter_fix_propagates hfix (n + 1 - k)
    rwa [show k + (n + 1 - k) = n + 1 by omega] at this
  show setStep adj (reachIter adj a n) = reachIter adj a n
  calc setStep adj (reachIter adj a n) = reachIter adj a (n+1) := rfl
    _ = reachIter adj a k := hn1
    _ = reachIter adj a n := hn.symm

lemma sccKey_closed {n : Nat} {adj : Nat → List Nat} {a u v : Nat}
    (ha : a < n) (hadj : ∀ u v, v ∈ adj u → v < n)
    (hu : u ∈ sccKey n adj a) (hv : v ∈ adj u) : v ∈ sccKey n adj a := by
  rw [← sccKey_step_closed ha hadj]
  refine Finset.mem_union_right _ (Finset.mem_biUnion.mpr ⟨u, hu, ?_⟩)
  exact List.mem_toFinset.mpr hv

lemma mem_sccKey_self (n : Nat) (adj : Nat → List Nat) (a : Nat) :
    a ∈ sccKey n adj a :=
  mem_reachIter_self adj a n

lemma reachIter_subset_of_closed {adj : Nat → List Nat} {v : Nat} {T : Finset Nat}
    (hvT : v ∈ T) (hclosed : ∀ x ∈ T, ∀ y ∈ adj x, y ∈ T) (k : Nat) :
    reachIter adj v k ⊆ T := by
  induction k with
  | zero => simpa [reachIter, Finset.singleton_subset_iff]
  | succ k ih =>
    refine Finset.union_subset ih (Finset.biUnion_subset.mpr fun x hx => ?_)
    intro y hy
    exact hclosed x (ih hx) y (List.mem_toFinset.mp hy)

lemma sccKey_subset_of_edge {n : Nat} {adj : Nat → List Nat} {u v : Nat}
    (hu : u < n) (hadj : ∀ u v, v ∈ adj u → v < n) (hv : v ∈ adj u) :
    sccKey n adj v ⊆ sccKey n adj u := by
  refine reachIter_subset_of_closed ?_ ?_ n
  · exact sccKey_closed hu hadj (mem_sccKey_self n adj u) hv
  · intro x hx y hy
    exact sccKey_closed hu hadj hx hy

lemma sccKey_card_lt_of_edge {n : Nat} {adj : Nat → List Nat} {u v : Nat}
    (hu : u < n) (hadj : ∀ u v, v ∈ adj u → v < n) (hv : v ∈ adj u)
    (hne : sccKey n adj u ≠ sccKey n adj v) :
    (sccKey n adj v).card < (sccKey n adj u).card :=
  Finset.card_lt_card (Finset.ssubset_iff_subset_ne.mpr
    ⟨sccKey_subset_of_edge hu hadj hv, fun he => hne he.symm⟩)

lemma mem_insertByKey {key : Nat → Nat} {x a : Nat} {l : List Nat} :
    a ∈ insertByKey key x l ↔ a = x ∨ a ∈ l := by
  induction l with
  | nil => simp [insertByKey]
  | cons y ys ih =>
    by_cases h : key x ≤ key y <;> simp [insertByKey, h, ih] <;> tauto

lemma pairwise_insertByKey {key : Nat → Nat} {x : Nat} {l : List Nat}
    (hl : l.Pairwise (fun a b => key a ≤ key b)) :
    (insertByKey key x l).Pairwise (fun a b => key a ≤ key b) := by
  induction l with
  | nil => simp [insertByKey]
  | cons y ys ih =>
    rw [List.pairwise_cons] at hl
    by_cases h : key x ≤ key y
    · rw [insertByKey, if_pos h]
      refine List.pairwise_cons.mpr ⟨?_, List.pairwise_cons.mpr hl⟩
      intro b hb
      rcases List.mem_cons.mp hb with rfl | hb
      · exact h
      · exact Nat.le_trans h (hl.1 b hb)
    · rw [insertByKey, if_neg h]
      refine List.pairwise_cons.mpr ⟨?_, ih hl.2⟩
      intro b hb
      rcases mem_insertByKey.mp hb with rfl | hb
      · omega
      · exact hl.1 b hb

lemma pairwise_sortByKey (key : Nat → Nat) (l : List Nat) :
    (sortByKey key l).Pairwise (fun a b => key a ≤ key b) := by
  induction l with
  | nil => simp [sortByKey]
  | cons x xs ih => exact pairwise_insertByKey ih

lemma mem_sortByKey {key : Nat → Nat} {a : Nat} {l : List Nat} :
    a ∈ sortByKey key l ↔ a ∈ l := by
  induction l with
  | nil => simp [sortByKey]
  | cons x xs ih => simp [sortByKey, mem_insertByKey, ih]

lemma dedupKeysAux_sublist (seen : List (Finset Nat)) (l : List (Finset Nat)) :
    (dedupKeysAux seen l).Sublist l := by
  induction l generalizing seen with
  | nil => simp [dedupKeysAux]
  | cons k ks ih =>
    by_cases h : k ∈ seen
    · simp only [dedupKeysAux, if_pos h]
      exact (ih seen).cons k
    · simp only [dedupKeysAux, if_neg h]
      exact (ih (k :: seen)).cons₂ k

lemma mem_dedupKeysAux_not_seen {seen : List (Finset Nat)} {l : List (Finset Nat)}
    {x : Finset Nat} (hx : x ∈ dedupKeysAux seen l) : x ∉ seen := by
  induction l generalizing seen with
  | nil => simp [dedupKeysAux] at hx
  | cons k ks ih =>
    by_cases h : k ∈ seen
    · rw [dedupKeysAux, if_pos h] at hx
      exact ih hx
    · rw [dedupKeysAux, if_neg h] at hx
      rcases List.mem_cons.mp hx with rfl | hx
      · exact h
      · intro hxs
        exact (ih hx) (List.mem_cons_of_mem _ hxs)

lemma nodup_dedupKeysAux (seen : List (Finset Nat)) (l : List (Finset Nat)) :
    (dedupKeysAux seen l).Nodup := by
  induction l generalizing seen with
  | nil => simp [dedupKeysAux]
  | cons k ks ih =>
    by_cases h : k ∈ seen
    · simpa [dedupKeysAux, if_pos h] using ih seen
    · rw [dedupKeysAux, if_neg h]
      refine List.nodup_cons.mpr ⟨?_, ih (k :: seen)⟩
      intro hk
      exact (mem_dedupKeysAux_not_seen hk) (List.mem_cons_self k seen)

lemma mem_dedupKeysAux_of_mem {seen : List (Finset Nat)} {l : List (Finset Nat)}
    {x : Finset Nat} (hx : x ∈ l) (hns : x ∉ seen) : x ∈ dedupKeysAux seen l := by
  induction l generalizing seen with
  | nil => simp at hx
  | cons k ks ih =>
    by_cases h : k ∈ seen
    · rw [dedupKeysAux, if_pos h]
      rcases List.mem_cons.mp hx with rfl | hx
      · exact absurd h hns
      · exact ih hx hns
    · rw [dedupKeysAux, if_neg h]
      rcases List.mem_cons.mp hx with rfl | hx
      · exact List.mem_cons_self _ _
      · by_cases hxk : x = k
        · subst hxk; exact List.mem_cons_self _ _
        · refine List.mem_cons_of_mem _ (ih hx ?_)
          simp [hxk, hns]

/-- C2 core index argument: in a list of keys that is pairwise sorted by
card and duplicate-free, a key of strictly smaller card sits at a strictly
smaller index. -/
lemma idx_lt_of_card_lt {dl : List (Finset Nat)} {i j : Nat} {ki kj : Finset Nat}
    (hpw : dl.Pairwise (fun k1 k2 => k1.card ≤ k2.card))
    (hi : dl[i]? = some ki) (hj : dl[j]? = some kj)
    (hcard : kj.card < ki.card) : j < i := by
  rcases Nat.lt_or_ge j i with h | h
  · exact h
  · exfalso
    rcases Nat.eq_or_lt_of_le h with heq | hlt
    · subst heq
      rw [hi] at hj
      injection hj with h'
      rw [h'] at hcard
      omega
    · have hilen : i < dl.length := (List.getElem?_eq_some.mp hi).1
      have hjlen : j < dl.length := (List.getElem?_eq_some.mp hj).1
      have hgi : dl[i] = ki := by
        have := List.getElem?_eq_getElem hilen
        rw [hi] at this; injection this with h'; exact h'.symm
      have hgj : dl[j] = kj := by
        have := List.getElem?_eq_getElem hjlen
        rw [hj] at this; injection this with h'; exact h'.symm
      have := (List.pairwise_iff_getElem.mp hpw) i j hilen hjlen hlt
      rw [hgi, hgj] at this
      omega

/-- The returned key list is pairwise sorted by card and duplicate-free. -/
lemma depKeys_sorted_nodup (n : Nat) (adj : Nat → List Nat) :
    (dedupKeys ((sortedNodes n adj).map (sccKey n adj))).Pairwise
      (fun k1 k2 => k1.card ≤ k2.card) ∧
    (dedupKeys ((sortedNodes n adj).map (sccKey n adj))).Nodup := by
  constructor
  · have hsorted : (sortedNodes n adj).Pairwise
        (fun a b => (sccKey n adj a).card ≤ (sccKey n adj b).card) :=
      pairwise_sortByKey _ _
    have hmap : ((sortedNodes n adj).map (sccKey n adj)).Pairwise
        (fun k1 k2 => k1.card ≤ k2.card) :=
      List.pairwise_map.mpr hsorted
    exact List.Pairwise.sublist (dedupKeysAux_sublist [] _) hmap
  · exact nodup_dedupKeysAux [] _

/-- Membership in a returned component pins down the node's SCC key. -/
lemma key_eq_of_mem_component {n : Nat} {adj : Nat → List Nat} {k : Finset Nat}
    {x : Nat} (hx : x ∈ (sortedNodes n adj).filter (fun u => decide (sccKey n adj u = k))) :
    sccKey n adj x = k := by
  have := List.mem_filter.mp hx
  exact of_decide_eq_true this.2

/-- C2 main lemma: for every edge `u → v` of the graph, the component of
`v` is the component of `u` or one at a strictly smaller index. -/
theorem dependency_sort_topological
    (n : Nat) (adj : Nat → List Nat)
    (hadj : ∀ u v, v ∈ adj u → v < n)
    (u v : Nat) (hu : u < n) (hv : v ∈ adj u)
    (i j : Nat) (cu cv : List Nat)
    (hcu : (dependency_sort n adj)[i]? = some cu)
    (hcv : (dependency_sort n adj)[j]? = some cv)
    (humem : u ∈ cu) (hvmem : v ∈ cv) : i = j ∨ j < i := by
  rw [dependency_sort, List.getElem?_map] at hcu hcv
  rcases Option.map_eq_some'.mp hcu with ⟨ki, hki, hcui⟩
  rcases Option.map_eq_some'.mp hcv with ⟨kj, hkj, hcvj⟩
  rw [← hcui] at humem
  rw [← hcvj] at hvmem
  have hku : sccKey n adj u = ki := key_eq_of_mem_component humem
  have hkv : sccKey n adj v = kj := key_eq_of_mem_component hvmem
  obtain ⟨hpw, hnd⟩ := depKeys_sorted_nodup n adj
  by_cases heq : sccKey n adj u = sccKey n adj v
  · left
    have : ki = kj := by rw [← hku, ← hkv, heq]
    apply List.getElem?_inj (List.getElem?_eq_some.mp hki).1 hnd
    rw [hki, hkj, this]
  · right
    have hcard : kj.card < ki.card := by
      rw [← hku, ← hkv]
      exact sccKey_card_lt_of_edge hu hadj hv heq
    exact idx_lt_of_card_lt hpw hki hkj hcard

/-! ## The driver `main` of `pyasn1gen.py` (lines 616–645)

The emission phase is modelled by its observable effects: the warning list
printed to the diagnostic stream, and the output stream each module's code
is written to (stdout, or the per-module `<module>.py` file of `--split`
mode). -/

structure DriverEffects where
  warnings : List String
  outputs : List (String × String)
  deriving Repr, DecidableEq

/-- The effects of `main` on a parsed input yielding the given semantic
modules: warn iff more than one module is generated without `--split`; then
emit each module, in order, to its stream. -/
def main_emit (module_names : List String) (split : Bool) : DriverEffects :=
  { warnings :=
      if module_names.length > 1 ∧ ¬split then
        ["WARNING: More than one module generated to the same stream."]
      else [],
    outputs := module_names.map (fun m =>
      ((if split then _sanitize_module m ++ ".py" else "<stdout>"), m)) }

/-! ## Embedding of the value-range grammar of `asn1ate/parser.py`

pyparsing rules become functions from the remaining input to an optional
(result, rest) pair; `MatchFirst` is ordered choice, `And` sequences without
backtracking into earlier elements, `Combine` concatenates adjacent matches,
and every non-combined token first skips leading whitespace. -/

def Rule (α : Type) : Type := List Char → Option (α × List Char)

def pPure {α : Type} (a : α) : Rule α := fun s => some (a, s)

def pBind {α β : Type} (p : Rule α) (f : α → Rule β) : Rule β := fun s =>
  match p s with
  | some (a, rest) => f a rest
  | none => none

/-- Ordered choice (`MatchFirst` / `|`). -/
def pAlt {α : Type} (p q : Rule α) : Rule α := fun s =>
  match p s with
  | some r => some r
  | none => q s

def pSat (f : Char → Bool) : Rule Char := fun s =>
  match s with
  | c :: rest => if f c then some (c, rest) else none
  | [] => none

def pChar (c : Char) : Rule Char := pSat (fun x => x = c)

/-- The `Literal`: an exact character sequence. -/
def pLit (w : List Char) : Rule (List Char) := fun s =>
  if s.take w.length = w then some (w, s.drop w.length) else none

/-- The `Word(chars)`: the longest nonempty run of matching characters. -/
def pWord (f : Char → Bool) : Rule (List Char) := fun s =>
  let taken := s.takeWhile f
  if taken.isEmpty then none else some (taken, s.drop taken.length)

/-- The `Optional(p)`. -/
def pOpt {α : Type} (p : Rule α) : Rule (Option α) := fun s =>
  match p s with
  | some (a, rest) => some (some a, rest)
  | none => some (none, s)

def isWsChar (c : Char) : Bool := c = ' ' || c = '\t' || c = '\n' || c = '\r'

def skipWs (s : List Char) : List Char := s.dropWhile isWsChar

/-- Leading-whitespace skipping of a pyparsing token. -/
def tok {α : Type} (p : Rule α) : Rule α := fun s => p (skipWs s)

/-- The `Keyword(w)`: the literal must not be followed by a keyword character
(pyparsing default ident chars: alphanumerics, `_`, `$`). -/
def pKeywordLit (w : List Char) : Rule (List Char) := fun s =>
  match pLit w s with
  | some (ws_, rest) =>
    match rest with
    | c :: _ => if c.isAlphanum || c = '_' || c = '$' then none else some (ws_, rest)
    | [] => some (ws_, rest)
  | none => none

/-- The `number = Word(nums)` (line 164). -/
def pNumber : Rule (List Char) := pWord Char.isDigit

/-- The `signed_number = Combine(Optional('-') + number)` (line 165). -/
def pSignedNumber : Rule (List Char) :=
  pBind (pOpt (pChar '-')) (fun neg =>
  pBind pNumber (fun ds =>
  pPure (match neg with | some _ => '-' :: ds | none => ds)))

/-- The `exponent = CaselessLiteral('e') + signed_number` (line 191). -/
def pExponent : Rule (List Char) :=
  pBind (pSat (fun c => c = 'e' || c = 'E')) (fun e =>
  pBind pSignedNumber (fun ds =>
  pPure (e :: ds)))

/-- The `real_value = Combine(signed_number + Optional(Literal('.') +
Optional(number)) + Optional(exponent))` (line 192): after the decimal
point, digits are optional. -/
def pRealValue : Rule (List Char) :=
  pBind pSignedNumber (fun intpart =>
  pBind (pOpt (pBind (pChar '.') (fun _ =>
    pBind (pOpt pNumber) (fun frac =>
    pPure ('.' :: frac.getD []))))) (fun fracpart =>
  pBind (pOpt pExponent) (fun ex =>
  pPure (intpart ++ fracpart.getD [] ++ ex.getD []))))

/-- The `constraint_real_value = Combine(signed_number + Optional(Literal('.') +
number) + Optional(exponent))` (line 196): in value-range constraints the
decimal point must be followed by at least one digit. -/
def pConstraintRealValue : Rule (List Char) :=
  pBind pSignedNumber (fun intpart =>
  pBind (pOpt (pBind (pChar '.') (fun _ =>
    pBind pNumber (fun frac =>
    pPure ('.' :: frac))))) (fun fracpart =>
  pBind (pOpt pExponent) (fun ex =>
  pPure (intpart ++ fracpart.getD [] ++ ex.getD []))))

/-- The `[-0-9a-zA-Z]`, the identifier suffix character class (line 86). -/
def identChar (c : Char) : Bool := c = '-' || c.isDigit || (c.isAlpha && c.toNat < 128)

/-- The `build_identifier(prefix)`: one prefix character, then an optional run
of identifier characters (lines 85–88). -/
def pIdentifierFrom (first : Char → Bool) : Rule (List Char) :=
  pBind (pSat first) (fun c =>
  pBind (pOpt (pWord identChar)) (fun rest =>
  pPure (c :: rest.getD [])))

def pValueReference : Rule (List Char) :=
  pIdentifierFrom (fun c => c.isLower && c.toNat < 128)

def pModuleReference : Rule (List Char) :=
  pIdentifierFrom (fun c => c.isUpper && c.toNat < 128)

/-- The `external_value_reference = module_reference + Suppress('.') +
valuereference` (line 199); the matched text suffices here. -/
def pExternalValueReference : Rule (List Char) :=
  pBind (tok pModuleReference) (fun m =>
  pBind (tok (pChar '.')) (fun _ =>
  pBind (tok pValueReference) (fun v =>
  pPure (m ++ '.' :: v))))

/-- The `defined_value = external_value_reference | valuereference` and
`referenced_value = Unique(defined_value)` (lines 200–201). -/
def pReferencedValue : Rule (List Char) :=
  pAlt pExternalValueReference (tok pValueReference)

/-- The `lower_bound = (constraint_real_value | signed_number | referenced_value
| MIN)` (line 240). -/
def pLowerBound : Rule (List Char) :=
  pAlt (tok pConstraintRealValue)
    (pAlt (tok pSignedNumber)
      (pAlt pReferencedValue (tok (pKeywordLit ['M', 'I', 'N']))))

/-- The `upper_bound` (line 241), with `MAX`. -/
def pUpperBound : Rule (List Char) :=
  pAlt (tok pConstraintRealValue)
    (pAlt (tok pSignedNumber)
      (pAlt pReferencedValue (tok (pKeywordLit ['M', 'A', 'X']))))

/-- The `value_range_constraint = Suppress('(') + lower_bound + Suppress('..') +
upper_bound + Suppress(')')` (line 243). -/
def pValueRangeConstraint : Rule (List Char × List Char) :=
  pBind (tok (pChar '(')) (fun _ =>
  pBind pLowerBound (fun lo =>
  pBind (tok (pLit ['.', '.'])) (fun _ =>
  pBind pUpperBound (fun hi =>
  pBind (tok (pChar ')')) (fun _ =>
  pPure (lo, hi))))))

lemma isWsChar_eq_false_of_isDigit {c : Char} (h : c.isDigit = true) :
    isWsChar c = false := by
  cases hws : isWsChar c
  · rfl
  · exfalso
    simp only [isWsChar, Bool.or_eq_true, decide_eq_true_eq] at hws
    rcases hws with ((rfl | rfl) | rfl) | rfl <;> revert h <;> decide

lemma skipWs_noop {s : List Char}
    (h : ∀ c, s.head? = some c → isWsChar c = false) : skipWs s = s := by
  cases s with
  | nil => rfl
  | cons c rest =>
    have := h c rfl
    simp [skipWs, List.dropWhile_cons, this]

lemma takeWhile_append_exact {f : Char → Bool} {ds rest : List Char}
    (hds : ∀ c ∈ ds, f c = true)
    (hrest : ∀ c, rest.head? = some c → f c = false) :
    (ds ++ rest).takeWhile f = ds := by
  induction ds with
  | nil =>
    cases rest with
    | nil => rfl
    | cons c r => simp [List.takeWhile_cons, hrest c rfl]
  | cons d ds ih =>
    have hd := hds d (List.mem_cons_self d ds)
    simp only [List.cons_append, List.takeWhile_cons, hd, if_true]
    rw [ih (fun c hc => hds c (List.mem_cons_of_mem d hc))]

lemma pWord_exact {f : Char → Bool} {ds rest : List Char}
    (hds : ∀ c ∈ ds, f c = true) (hne : ds ≠ [])
    (hrest : ∀ c, rest.head? = some c → f c = false) :
    pWord f (ds ++ rest) = some (ds, rest) := by
  have htw := takeWhile_append_exact hds hrest
  simp [pWord, htw, hne, List.drop_left]

lemma pSignedNumber_digits {ds rest : List Char}
    (hds : ∀ c ∈ ds, c.isDigit = true) (hne : ds ≠ [])
    (hrest : ∀ c, rest.head? = some c → c.isDigit = false) :
    pSignedNumber (ds ++ rest) = some (ds, rest) := by
  obtain ⟨d, ds', rfl⟩ : ∃ d ds', ds = d :: ds' := by
    cases ds with
    | nil => exact absurd rfl hne
    | cons d ds' => exact ⟨d, ds', rfl⟩
  have hd : d.isDigit = true := hds d (List.mem_cons_self d ds')
  have hdm : (d = '-') = False := by
    simp only [eq_iff_iff, iff_false]
    rintro rfl
    simp [Char.isDigit] at hd
  have hnum : pNumber (d :: (ds' ++ rest)) = some (d :: ds', rest) := by
    have := pWord_exact hds hne hrest
    simpa [pNumber] using this
  simp [pSignedNumber, pBind, pOpt, pChar, pSat, pPure, hdm, hnum]

lemma pConstraintRealValue_digits {ds rest : List Char}
    (hds : ∀ c ∈ ds, c.isDigit = true) (hne : ds ≠ [])
    (hrest : ∀ c, rest.head? = some c →
      c.isDigit = false ∧ c ≠ 'e' ∧ c ≠ 'E')
    (hdot : ∀ r2, rest = '.' :: r2 →
      ∀ c, r2.head? = some c → c.isDigit = false) :
    pConstraintRealValue (ds ++ rest) = some (ds, rest) := by
  have hsn := pSignedNumber_digits hds hne (fun c hc => (hrest c hc).1)
  have hfrac :
      (pOpt (pBind (pChar '.') (fun _ =>
        pBind pNumber (fun frac => pPure ('.' :: frac))))) rest =
      some (none, rest) := by
    cases rest with
    | nil => rfl
    | cons c r2 =>
      by_cases hc : c = '.'
      · subst hc
        have hr2 : pNumber r2 = none := by
          cases r2 with
          | nil => rfl
          | cons c2 r3 =>
            have := hdot (c2 :: r3) rfl c2 rfl
            simp [pNumber, pWord, List.takeWhile_cons, this]
        simp [pOpt, pBind, pChar, pSat, hr2]
      · simp [pOpt, pBind, pChar, pSat, hc]
  have hexp : pOpt pExponent rest = some (none, rest) := by
    cases rest with
    | nil => rfl
    | cons c r2 =>
      have hc := hrest c rfl
      have h1 : (c = 'e') = False := by simp [hc.2.1]
      have h2 : (c = 'E') = False := by simp [hc.2.2]
      simp [pOpt, pExponent, pBind, pSat, h1, h2]
  simp [pConstraintRealValue, pBind, hsn, hfrac, hexp, pPure]

lemma head_append_of_ne {ds rest : List Char} (hne : ds ≠ []) :
    (ds ++ rest).head? = ds.head? := by
  cases ds with
  | nil => exact absurd rfl hne
  | cons d ds' => rfl

/-- A bound consisting solely of digits is taken by the first alternative,
`constraint_real_value`. -/
lemma pBound_digits {ds rest : List Char}
    (hds : ∀ c ∈ ds, c.isDigit = true) (hne : ds ≠ [])
    (hrest : ∀ c, rest.head? = some c →
      c.isDigit = false ∧ c ≠ 'e' ∧ c ≠ 'E')
    (hdot : ∀ r2, rest = '.' :: r2 →
      ∀ c, r2.head? = some c → c.isDigit = false) :
    pLowerBound (ds ++ rest) = some (ds, rest) ∧
    pUpperBound (ds ++ rest) = some (ds, rest) := by
  have hskip : skipWs (ds ++ rest) = ds ++ rest := by
    apply skipWs_noop
    intro c hc
    rw [head_append_of_ne hne] at hc
    cases ds with
    | nil => exact absurd rfl hne
    | cons d ds' =>
      have : c = d := by injection hc with h; exact h.symm
      subst this
      exact isWsChar_eq_false_of_isDigit (hds c (List.mem_cons_self c ds'))
  have hcrv := pConstraintRealValue_digits hds hne hrest hdot
  constructor
  · simp only [pLowerBound, pAlt, tok, hskip, hcrv]
  · simp only [pUpperBound, pAlt, tok, hskip, hcrv]

/-- C8 main lemma: on `(a..b)` with digit-string endpoints, the
`constraint_real_value` bound rule refuses to consume the first dot (a
decimal point must be followed by a digit), and the whole
`value_range_constraint` rule parses the text as the range from `a` to `b`,
consuming all input. -/
lemma value_range_integer_endpoints (a b : List Char)
    (hane : a ≠ []) (ha : ∀ c ∈ a, c.isDigit = true)
    (hbne : b ≠ []) (hb : ∀ c ∈ b, c.isDigit = true) :
    pConstraintRealValue (a ++ ('.' :: '.' :: (b ++ [')']))) =
      some (a, '.' :: '.' :: (b ++ [')'])) ∧
    pValueRangeConstraint ('(' :: (a ++ ('.' :: '.' :: (b ++ [')'])))) =
      some ((a, b), []) := by
  have hrest1 : ∀ c, ('.' :: '.' :: (b ++ [')'])).head? = some c →
      c.isDigit = false ∧ c ≠ 'e' ∧ c ≠ 'E' := by
    intro c hc
    injection hc with h
    subst h
    refine ⟨by decide, by decide, by decide⟩
  have hdot1 : ∀ r2, ('.' :: '.' :: (b ++ [')'])) = '.' :: r2 →
      ∀ c, r2.head? = some c → c.isDigit = false := by
    intro r2 h c hc
    injection h with _ h2
    subst h2
    injection hc with h3
    subst h3
    decide
  have hrestU : ∀ c, ([')'] : List Char).head? = some c →
      c.isDigit = false ∧ c ≠ 'e' ∧ c ≠ 'E' := by
    intro c hc
    injection hc with h
    subst h
    refine ⟨by decide, by decide, by decide⟩
  have hdotU : ∀ r2, ([')'] : List Char) = '.' :: r2 →
      ∀ c, r2.head? = some c → c.isDigit = false := by
    intro r2 h
    injection h with h1 _
    exact absurd h1 (by decide)
  have hcrv := pConstraintRealValue_digits ha hane hrest1 hdot1
  refine ⟨hcrv, ?_⟩
  obtain ⟨hlo, _⟩ := pBound_digits ha hane hrest1 hdot1
  obtain ⟨_, hhi⟩ := pBound_digits hb hbne hrestU hdotU
  have hlit : pLit ['.', '.'] ('.' :: '.' :: (b ++ [')'])) =
      some (['.', '.'], b ++ [')']) := by
    have htake : List.take 2 ('.' :: '.' :: (b ++ [')'])) = ['.', '.'] := rfl
    have hdrop : List.drop 2 ('.' :: '.' :: (b ++ [')'])) = b ++ [')'] := rfl
    simp [pLit, htake, hdrop]
  have hskip0 : skipWs ('(' :: (a ++ ('.' :: '.' :: (b ++ [')'])))) =
      '(' :: (a ++ ('.' :: '.' :: (b ++ [')']))) :=
    skipWs_noop (fun c hc => by injection hc with h; subst h; decide)
  have hskipdots : skipWs ('.' :: '.' :: (b ++ [')'])) = '.' :: '.' :: (b ++ [')']) :=
    skipWs_noop (fun c hc => by injection hc with h; subst h; decide)
  have hskipcl : skipWs ([')'] : List Char) = [')'] :=
    skipWs_noop (fun c hc => by injection hc with h; subst h; decide)
  simp [pValueRangeConstraint, pBind, tok, pChar, pSat, pPure,
    hskip0, hskipdots, hskipcl, hlo, hhi, hlit]

/-! ## Ordering facts about the `generate_code` emission trace (C1) -/

/-- The pairwise ordering discipline of the emitted blocks: a definition
block never precedes a declaration block of the same component, and
component indices never decrease along the stream. -/
def emitOrdered (e1 e2 : EmitEvent) : Prop :=
  (∀ c, e1.isDefnOf c → ¬ e2.isDeclOf c) ∧
  (∀ c1 c2, e1.comp? = some c1 → e2.comp? = some c2 → c1 ≤ c2)

lemma decl_events_shape {svc : SemaServices} {ci : Nat} :
    ∀ {ai : Nat} {component : List SemaNode} {es : List EmitEvent},
    decl_events svc ci ai component = .ok es →
    ∀ e ∈ es, (∃ i s, e = .declBlock ci i s) ∨ ∃ k, e = .blank k := by
  intro ai component
  induction component generalizing ai with
  | nil =>
    intro es h e he
    rw [decl_events] at h
    injection h with h
    subst h
    simp at he
  | cons a rest ih =>
    intro es h e he
    rw [decl_events] at h
    cases hd : generate_decl svc a with
    | error msg => simp [hd] at h
    | ok d =>
      cases hes : decl_events svc ci (ai+1) rest with
      | error msg => simp [hd, hes] at h
      | ok es' =>
        simp only [hd, hes, Except.ok.injEq] at h
        subst h
        rcases List.mem_cons.mp he with rfl | he2
        · exact Or.inl ⟨ai, d, rfl⟩
        · rcases List.mem_cons.mp he2 with rfl | he3
          · exact Or.inr ⟨2, rfl⟩
          · exact ih hes e he3

lemma defn_events_shape {svc : SemaServices} {fuel ci : Nat} :
    ∀ {ai : Nat} {component : List SemaNode} {es : List EmitEvent},
    defn_events svc fuel ci ai component = .ok es →
    ∀ e ∈ es, (∃ i s, e = .defnBlock ci i s) ∨ ∃ k, e = .blank k := by
  intro ai component
  induction component generalizing ai with
  | nil =>
    intro es h e he
    rw [defn_events] at h
    injection h with h
    subst h
    simp at he
  | cons a rest ih =>
    intro es h e he
    rw [defn_events] at h
    cases hd : generate_definition svc fuel a with
    | error msg => simp [hd] at h
    | ok details =>
      cases hes : defn_events svc fuel ci (ai+1) rest with
      | error msg => simp [hd, hes] at h
      | ok es' =>
        cases details with
        | none =>
          simp only [hd, hes, Except.ok.injEq] at h
          subst h
          exact ih hes e he
        | some sdfn =>
          by_cases hne : sdfn ≠ ""
          · simp only [hd, hes, if_pos hne, Except.ok.injEq] at h
            subst h
            rcases List.mem_cons.mp he with rfl | he2
            · exact Or.inl ⟨ai, sdfn, rfl⟩
            · rcases List.mem_cons.mp he2 with rfl | he3
              · exact Or.inr ⟨2, rfl⟩
              · exact ih hes e he3
          · simp only [hd, hes, if_neg hne, Except.ok.injEq] at h
            subst h
            exact ih hes e he

lemma comp?_of_decl_shape {ci : Nat} {e : EmitEvent}
    (h : (∃ i s, e = .declBlock ci i s) ∨ ∃ k, e = .blank k) :
    ∀ c, e.comp? = some c → c = ci := by
  intro c hc
  rcases h with ⟨i, s, rfl⟩ | ⟨k, rfl⟩
  · simp [EmitEvent.comp?] at hc; omega
  · simp [EmitEvent.comp?] at hc

lemma comp?_of_defn_shape {ci : Nat} {e : EmitEvent}
    (h : (∃ i s, e = .defnBlock ci i s) ∨ ∃ k, e = .blank k) :
    ∀ c, e.comp? = some c → c = ci := by
  intro c hc
  rcases h with ⟨i, s, rfl⟩ | ⟨k, rfl⟩
  · simp [EmitEvent.comp?] at hc; omega
  · simp [EmitEvent.comp?] at hc

lemma components_events_ordered {svc : SemaServices} {fuel : Nat} :
    ∀ {ci : Nat} {comps : List (List SemaNode)} {es : List EmitEvent},
    components_events svc fuel ci comps = .ok es →
    es.Pairwise emitOrdered ∧ (∀ e ∈ es, ∀ c, e.comp? = some c → ci ≤ c) := by
  intro ci comps
  induction comps generalizing ci with
  | nil =>
    intro es h
    rw [components_events] at h
    injection h with h
    subst h
    simp
  | cons component rest ih =>
    intro es h
    rw [components_events] at h
    cases hds : decl_events svc ci 0 component with
    | error msg => simp [hds] at h
    | ok ds =>
      cases hfs : defn_events svc fuel ci 0 component with
      | error msg => simp [hds, hfs] at h
      | ok fs =>
        cases hes : components_events svc fuel (ci+1) rest with
        | error msg => simp [hds, hfs, hes] at h
        | ok rest_es =>
          simp only [hds, hfs, hes, Except.ok.injEq] at h
          subst h
          obtain ⟨hrest_pw, hrest_ge⟩ := ih hes
          have hds_shape := decl_events_shape hds
          have hfs_shape := defn_events_shape hfs
          -- Any declaration-pass event is not a definition block, and its
          -- component (when present) is `ci`.
          have hds_nodefn : ∀ e ∈ ds, ∀ c, ¬ e.isDefnOf c := by
            intro e he c ⟨i, s, hcon⟩
            rcases hds_shape e he with ⟨i', s', rfl⟩ | ⟨k, rfl⟩ <;> simp at hcon
          have hfs_nodecl : ∀ e ∈ fs, ∀ c, ¬ e.isDeclOf c := by
            intro e he c ⟨i, s, hcon⟩
            rcases hfs_shape e he with ⟨i', s', rfl⟩ | ⟨k, rfl⟩ <;> simp at hcon
          have hrest_nodecl_ci : ∀ e ∈ rest_es, ¬ e.isDeclOf ci := by
            intro e he ⟨i, s, hcon⟩
            subst hcon
            have := hrest_ge _ he ci (by simp [EmitEvent.comp?])
            omega
          constructor
          · rw [List.pairwise_append]
            refine ⟨?_, hrest_pw, ?_⟩
            · rw [List.pairwise_append]
              refine ⟨?_, ?_, ?_⟩
              · -- within the declaration pass
                apply List.pairwise_of_forall_mem_list
                intro e1 h1 e2 h2
                refine ⟨fun c hdf => absurd hdf (hds_nodefn e1 h1 c), ?_⟩
                intro c1 c2 hc1 hc2
                rw [comp?_of_decl_shape (hds_shape e1 h1) c1 hc1,
                    comp?_of_decl_shape (hds_shape e2 h2) c2 hc2]
              · -- within the definition pass
                apply List.pairwise_of_forall_mem_list
                intro e1 h1 e2 h2
                refine ⟨fun c _ => hfs_nodecl e2 h2 c, ?_⟩
                intro c1 c2 hc1 hc2
                rw [comp?_of_defn_shape (hfs_shape e1 h1) c1 hc1,
                    comp?_of_defn_shape (hfs_shape e2 h2) c2 hc2]
              · -- declaration pass before definition pass
                intro e1 h1 e2 h2
                refine ⟨fun c hdf => absurd hdf (hds_nodefn e1 h1 c), ?_⟩
                intro c1 c2 hc1 hc2
                rw [comp?_of_decl_shape (hds_shape e1 h1) c1 hc1,
                    comp?_of_defn_shape (hfs_shape e2 h2) c2 hc2]
            · -- both passes of this component before later components
              intro e1 h1 e2 h2
              have hcomp1 : ∀ c, e1.comp? = some c → c = ci := by
                rcases List.mem_append.mp h1 with h1d | h1f
                · exact comp?_of_decl_shape (hds_shape e1 h1d)
                · exact comp?_of_defn_shape (hfs_shape e1 h1f)
              refine ⟨?_, ?_⟩
              · intro c hdf hdc
                have hc1 : c = ci := by
                  rcases hdf with ⟨i, sd, rfl⟩
                  exact hcomp1 c (by simp [EmitEvent.comp?])
                subst hc1
                exact hrest_nodecl_ci e2 h2 hdc
              · intro c1 c2 hc1 hc2
                rw [hcomp1 c1 hc1]
                have := hrest_ge e2 h2 c2 hc2
                omega
          · intro e he c hc
            rcases List.mem_append.mp he with h1 | h2r
            · rcases List.mem_append.mp h1 with h1d | h1f
              · rw [comp?_of_decl_shape (hds_shape e h1d) c hc]
              · rw [comp?_of_defn_shape (hfs_shape e h1f) c hc]
            · have := hrest_ge e h2r c hc
              omega

/-! ## Shapes of the declaration strings (C4) -/

/-- The text of an emitted class declaration, as the two writer lines
produce it: `class <assigned>(<base>):` and an indented `pass`. -/
def declClassText (assigned base : String) : String :=
  "class " ++ assigned ++ "(" ++ base ++ "):" ++ "\n"
    ++ (String.mk (List.replicate 4 ' ') ++ "pass" ++ "\n")

lemma class_line_ne_empty (A B : String) :
    ("class " ++ A ++ "(" ++ B ++ "):") ≠ "" := by
  intro h
  have := congrArg String.data h
  simp [String.data_append] at this

/-- Whenever `decl_type_assignment` succeeds, the produced block is the
class declaration whose name is `_translate_type` of the assignment's
name. -/
lemma decl_type_assignment_shape {svc : SemaServices} {tn : String}
    {td : SemaType} {s : String}
    (h : decl_type_assignment svc tn td = .ok s) :
    ∃ base, s = declClassText (_translate_type tn) base := by
  rw [decl_type_assignment] at h
  cases hres : resolveForDecl svc td with
  | error msg => rw [hres] at h; simp at h
  | ok resolved =>
    rw [hres] at h
    simp only [exceptOkBind] at h
    cases htn : resolved.type_name with
    | error msg => rw [htn] at h; simp at h
    | ok tnr =>
      rw [htn] at h
      simp only [exceptOkBind, Except.ok.injEq] at h
      refine ⟨_translate_type tnr, ?_⟩
      rw [← h]
      apply stringExt
      have hne := class_line_ne_empty (_translate_type tn) (_translate_type tnr)
      simp [PythonWriter.write_line, PythonWriter.push_indent, PythonWriter.pop_indent,
        PythonWriter.indentLine, PythonWriter.fragment, hne, declClassText,
        String.data_append]

/-- Whenever `decl_value_assignment` succeeds, the declaration is the
sanitized value name, `=`, and the construct expression. -/
lemma decl_value_assignment_shape {svc : SemaServices} {vn : String}
    {td : SemaType} {v : Value} {s : String}
    (h : decl_value_assignment svc vn td v = .ok s) :
    ∃ e, s = _sanitize_identifier vn ++ " = " ++ e := by
  rw [decl_value_assignment] at h
  cases hb : build_value_construct_expr svc td v with
  | error msg => rw [hb] at h; simp at h
  | ok e =>
    rw [hb] at h
    simp only [exceptOkBind, Except.ok.injEq] at h
    exact ⟨e, h.symm⟩

/-! ## Shared concrete services for witnesses and counterexamples -/

/-- A semantic module whose resolver services are the identity (every type
resolves to itself; no selections resolve); EXPLICIT TAGS. -/
def svcId : SemaServices :=
  { module_name := "M", tag_default := .explicit,
    resolve_type_decl := fun t => .ok t,
    resolve_selection_type := fun _ => .ok none }

/-- Like `svcId`, but the module was declared with AUTOMATIC TAGS. -/
def svcAutoTags : SemaServices :=
  { module_name := "M", tag_default := .automatic,
    resolve_type_decl := fun t => .ok t,
    resolve_selection_type := fun _ => .ok none }

/-- Like `svcId`, but IMPLICIT TAGS, and every type resolves to a CHOICE. -/
def svcImplicitChoice : SemaServices :=
  { module_name := "M", tag_default := .implicit,
    resolve_type_decl := fun _ => .ok (.choiceType "CHOICE" []),
    resolve_selection_type := fun _ => .ok none }

/-! ## Claim C4 -/

/-- C4, counterexample: the assignment name `GeneralizedTime` is unchanged
by sanitization (no hyphen, not a Python keyword), yet the emitted
declaration names the class `useful.GeneralizedTime`: the pyasn1
builtin-type translation table rewrites it, so the emitted declaration name
is not the sanitized original. -/
theorem C4_builtin_name_counterexample :
    _sanitize_identifier "GeneralizedTime" = "GeneralizedTime" ∧
    _translate_type "GeneralizedTime" = "useful.GeneralizedTime" ∧
    decl_type_assignment svcId "GeneralizedTime" (.simpleType "INTEGER" none) =
      .ok "class useful.GeneralizedTime(univ.Integer):\n    pass\n" ∧
    "useful.GeneralizedTime" ≠ _sanitize_identifier "GeneralizedTime" := by
  refine ⟨by decide, by decide, by decide, by decide⟩

/-- C4 (amended): sanitization replaces every hyphen by an underscore and
appends one trailing underscore exactly when the result is a Python
keyword; a value assignment's declared name is exactly the sanitized value
name; and a type assignment's declared class name is the sanitized type
name *provided* the sanitized name is not a key of the builtin-type
translation table (builtin-colliding names are rewritten to their pyasn1
equivalents instead). -/
theorem C4_sanitized_declaration_names :
    (∀ name : String,
      (let r := String.mk (name.data.map (fun c => if c = '-' then '_' else c))
       (r ∈ python_keywords → _sanitize_identifier name = r ++ "_") ∧
       (r ∉ python_keywords → _sanitize_identifier name = r))) ∧
    (∀ (svc : SemaServices) (vn : String) (td : SemaType) (v : Value) (s : String),
      decl_value_assignment svc vn td v = .ok s →
      ∃ e, s = _sanitize_identifier vn ++ " = " ++ e) ∧
    (∀ (svc : SemaServices) (tn : String) (td : SemaType) (s : String),
      _ASN1_BUILTIN_TYPES.find? (fun kv => kv.1 = _sanitize_identifier tn) = none →
      decl_type_assignment svc tn td = .ok s →
      ∃ base, s = declClassText (_sanitize_identifier tn) base) := by
  refine ⟨?_, ?_, ?_⟩
  · intro name
    refine ⟨?_, ?_⟩ <;> intro hk <;> simp [_sanitize_identifier, hk]
  · intro svc vn td v s h
    exact decl_value_assignment_shape h
  · intro svc tn td s hfind h
    have htr : _translate_type tn = _sanitize_identifier tn := by
      rw [_translate_type, dictGet, hfind]
    obtain ⟨base, hb⟩ := decl_type_assignment_shape h
    exact ⟨base, by rwa [htr] at hb⟩

/-- C4 witness: the amended statement at concrete inputs. -/
theorem C4_sanitized_declaration_names_witness :
    _sanitize_identifier "foo-bar" = "foo_bar" ∧
    _sanitize_identifier "class" = "class_" ∧
    (∃ e, "myValue = univ.Integer(42)" = _sanitize_identifier "myValue" ++ " = " ++ e) ∧
    (∃ base, "class Foo_Type(univ.Integer):\n    pass\n" =
      declClassText (_sanitize_identifier "Foo-Type") base) := by
  refine ⟨?_, ?_, ?_, ?_⟩
  · have := (C4_sanitized_declaration_names.1 "foo-bar").2 (by decide)
    simpa using this
  · have := (C4_sanitized_declaration_names.1 "class").1 (by decide)
    simpa using this
  · exact C4_sanitized_declaration_names.2.1 svcId "myValue"
      (.simpleType "INTEGER" none) (.litValue "42") _ (by decide)
  · exact C4_sanitized_declaration_names.2.2 svcId "Foo-Type"
      (.simpleType "INTEGER" none) _ (by decide) (by decide)

/-! ## Claim C3 -/

lemma resolve_open_ne_implicit (tag_default implicitness : TagImplicitness)
    (inner : SemaType) (hopen : inner.isOpenType = true) :
    resolve_tag_implicitness tag_default implicitness inner ≠ .implicit := by
  cases implicitness <;> cases tag_default <;>
    simp [resolve_tag_implicitness, hopen]

/-- C3: whenever a tagged type's inner type resolves to a CHOICE or ANY
(open) type, `resolve_tag_implicitness` never answers IMPLICIT; under a
module default of IMPLICIT TAGS (and any tag-level marker a tag can carry)
the effective implicitness is EXPLICIT; and therefore the back end's
tagged-type emission, which consults the same resolution, never selects the
implicit form. -/
theorem C3_open_tags_never_implicit :
    (∀ (tag_default implicitness : TagImplicitness) (inner : SemaType),
      inner.isOpenType = true →
      resolve_tag_implicitness tag_default implicitness inner ≠ .implicit) ∧
    (∀ (implicitness : TagImplicitness) (inner : SemaType),
      inner.isOpenType = true → implicitness ≠ .automatic →
      resolve_tag_implicitness .implicit implicitness inner = .explicit) ∧
    (∀ (svc : SemaServices) (implicitness : TagImplicitness) (t inner : SemaType),
      svc.resolve_type_decl t = .ok inner → inner.isOpenType = true →
      svc.tagImplicitnessOf implicitness t ≠ .ok TagImplicitness.implicit) := by
  refine ⟨resolve_open_ne_implicit, ?_, ?_⟩
  · intro implicitness inner hopen hna
    cases implicitness <;> simp [resolve_tag_implicitness, hopen] <;>
      exact absurd rfl hna
  · intro svc implicitness t inner hres hopen heq
    rw [SemaServices.tagImplicitnessOf, hres] at heq
    simp only [exceptOkBind, Except.ok.injEq] at heq
    exact resolve_open_ne_implicit svc.tag_default implicitness inner hopen heq

/-- C3 witness: the spec's own example — IMPLICIT TAGS module, bare tag on
a CHOICE — resolves to EXPLICIT, and the back end agrees. -/
theorem C3_open_tags_never_implicit_witness :
    (SemaType.choiceType "CHOICE" []).isOpenType = true ∧
    resolve_tag_implicitness .implicit .default (.choiceType "CHOICE" []) = .explicit ∧
    resolve_tag_implicitness .implicit .default (.choiceType "CHOICE" []) ≠ .implicit ∧
    svcImplicitChoice.tagImplicitnessOf .default (.definedType none "A") ≠
      .ok TagImplicitness.implicit := by
  refine ⟨by decide, ?_, ?_, ?_⟩
  · exact C3_open_tags_never_implicit.2.1 .default _ (by decide) (by decide)
  · exact C3_open_tags_never_implicit.1 .implicit .default _ (by decide)
  · exact C3_open_tags_never_implicit.2.2 svcImplicitChoice .default
      (.definedType none "A") (.choiceType "CHOICE" []) rfl (by decide)

/-! ## Claim C6 -/

/-- C6: the three named tag classes translate to their pyasn1 constants; any
other (or absent) tag class falls back to the context-specific class; and
`build_tag_expr` embeds exactly that translation in the emitted
`tag.Tag(...)` expression. -/
theorem C6_tag_class_translation :
    _translate_tag_class (some "UNIVERSAL") = "tag.tagClassUniversal" ∧
    _translate_tag_class (some "APPLICATION") = "tag.tagClassApplication" ∧
    _translate_tag_class (some "PRIVATE") = "tag.tagClassPrivate" ∧
    (∀ c : Option String, c ≠ some "UNIVERSAL" → c ≠ some "APPLICATION" →
      c ≠ some "PRIVATE" → _translate_tag_class c = "tag.tagClassContext") ∧
    (∀ (svc : SemaServices) (cn : Option String) (num : String)
       (impl : TagImplicitness) (td resolved : SemaType),
      svc.resolve_type_decl td = .ok resolved →
      build_tag_expr svc (.taggedType cn num impl td) =
        .ok ("tag.Tag(" ++ _translate_tag_class cn ++ ", "
          ++ (if resolved.isConstructedType then "tag.tagFormatConstructed"
              else "tag.tagFormatSimple") ++ ", " ++ num ++ ")")) := by
  refine ⟨by decide, by decide, by decide, ?_, ?_⟩
  · intro c h1 h2 h3
    match c with
    | none => rfl
    | some sName =>
      have e1 : ¬ ("APPLICATION" = sName) := fun he => h2 (by rw [he])
      have e2 : ¬ ("PRIVATE" = sName) := fun he => h3 (by rw [he])
      have e3 : ¬ ("UNIVERSAL" = sName) := fun he => h1 (by rw [he])
      simp [_translate_tag_class, dictGet, _ASN1_TAG_CONTEXTS, List.find?,
        e1, e2, e3]
  · intro svc cn num impl td resolved hres
    rw [build_tag_expr, hres]
    simp only [exceptOkBind]

/-- C6 witness: an unrecognized class name gets the context class, and a
complete tag expression built against a SEQUENCE resolution. -/
theorem C6_tag_class_translation_witness :
    _translate_tag_class (some "FOO") = "tag.tagClassContext" ∧
    _translate_tag_class none = "tag.tagClassContext" ∧
    build_tag_expr svcId (.taggedType none "3" .default (.sequenceType "SEQUENCE" [])) =
      .ok "tag.Tag(tag.tagClassContext, tag.tagFormatConstructed, 3)" := by
  refine ⟨?_, ?_, ?_⟩
  · exact C6_tag_class_translation.2.2.2.1 (some "FOO")
      (by simp) (by simp) (by simp)
  · exact C6_tag_class_translation.2.2.2.1 none
      (by simp) (by simp) (by simp)
  · have := C6_tag_class_translation.2.2.2.2 svcId none "3" .default
      (.sequenceType "SEQUENCE" []) (.sequenceType "SEQUENCE" []) rfl
    simpa using this

/-! ## Claim C7 -/

/-- C7: the driver warns on the diagnostic stream exactly when more than
one module is emitted without `--split`; with `--split` every module goes to
its own file, and without it everything goes to stdout. -/
theorem C7_multi_module_warning :
    ∀ (module_names : List String) (split : Bool),
      ((main_emit module_names split).warnings ≠ [] ↔
        (module_names.length > 1 ∧ split = false)) ∧
      (split = true →
        (main_emit module_names split).outputs =
          module_names.map (fun m => (_sanitize_module m ++ ".py", m))) ∧
      (split = false →
        ∀ o ∈ (main_emit module_names split).outputs, o.1 = "<stdout>") := by
  intro module_names split
  cases split with
  | false =>
    refine ⟨?_, by simp, ?_⟩
    · by_cases hc : module_names.length > 1 <;> simp [main_emit, hc]
    · intro _ o ho
      simp only [main_emit, List.mem_map] at ho
      obtain ⟨m, _, rfl⟩ := ho
      rfl
  | true =>
    refine ⟨?_, fun _ => rfl, by simp⟩
    simp [main_emit]

/-- C7 witness: two modules to stdout warn; one module, or split mode, does
not; split mode routes to per-module files. -/
theorem C7_multi_module_warning_witness :
    (main_emit ["Mod-A", "Mod-B"] false).warnings ≠ [] ∧
    (main_emit ["Mod-A"] false).warnings = [] ∧
    (main_emit ["Mod-A", "Mod-B"] true).warnings = [] ∧
    (main_emit ["Mod-A", "Mod-B"] true).outputs =
      [("mod_a.py", "Mod-A"), ("mod_b.py", "Mod-B")] ∧
    (∀ o ∈ (main_emit ["Mod-A", "Mod-B"] false).outputs, o.1 = "<stdout>") := by
  refine ⟨?_, ?_, ?_, ?_, ?_⟩
  · exact (C7_multi_module_warning ["Mod-A", "Mod-B"] false).1.mpr ⟨by decide, rfl⟩
  · by_contra hne
    have := (C7_multi_module_warning ["Mod-A"] false).1.mp hne
    simp at this
  · by_contra hne
    have := (C7_multi_module_warning ["Mod-A", "Mod-B"] true).1.mp hne
    simp at this
  · have := (C7_multi_module_warning ["Mod-A", "Mod-B"] true).2.1 rfl
    rw [this]
    decide
  · exact (C7_multi_module_warning ["Mod-A", "Mod-B"] false).2.2 rfl

/-! ## Claim C9 -/

/-- C9 (amended): `generate_definition` returns `None` for every value
assignment, the type-definition generator's result for every type
assignment (which may itself raise), and raises directly on any other
argument.  The original claim's "raises exactly when neither" is refuted by
the counterexample below. -/
theorem C9_generate_definition_dispatch :
    (∀ (svc : SemaServices) (fuel : Nat) (vn : String) (td : SemaType) (v : Value),
      generate_definition svc fuel (.valueAssignment vn td v) = .ok none) ∧
    (∀ (svc : SemaServices) (fuel : Nat) (tn : String) (td : SemaType),
      generate_definition svc fuel (.typeAssignment tn td) =
        generate_defn svc fuel (_translate_type tn) td) ∧
    (∀ (svc : SemaServices) (fuel : Nat) (cls : String),
      generate_definition svc fuel (.otherNode cls) =
        .error ("Unexpected assignment type " ++ cls)) :=
  ⟨fun _ _ _ _ _ => rfl, fun _ _ _ _ => rfl, fun _ _ _ => rfl⟩

/-- C9 counterexample: under AUTOMATIC TAGS, the definition pass of a type
assignment `A ::= [0] INTEGER` raises `Unexpected implicitness` — so
`generate_definition` raises on a `TypeAssignment` too, refuting "raises
exactly when its argument is neither a ValueAssignment nor a
TypeAssignment". -/
theorem C9_type_assignment_raises_counterexample :
    generate_definition svcAutoTags 5
      (.typeAssignment "A" (.taggedType none "0" .default (.simpleType "INTEGER" none))) =
      .error "Unexpected implicitness: TagImplicitness.AUTOMATIC" := by
  decide

/-! ## Claim C10 -/

/-- C10: `write_line` of a non-empty string appends exactly
`current_indent` spaces, the string, and one newline; `write_line("")`
appends a bare newline; `write_line(None)` appends nothing; `write_blanks n`
appends exactly `n` newlines; and none of these operations changes
`current_indent`. -/
theorem C10_writer_line_behaviour :
    ∀ (w : PythonWriter) (s : String) (n : Nat),
      (s ≠ "" → 0 ≤ w.current_indent →
        (w.write_line (some s)).out.data =
          w.out.data ++ List.replicate w.current_indent.toNat ' ' ++ s.data ++ ['\n']) ∧
      ((w.write_line (some "")).out.data = w.out.data ++ ['\n']) ∧
      (w.write_line none = w) ∧
      ((w.write_blanks n).out.data = w.out.data ++ List.replicate n '\n') ∧
      ((w.write_line (some s)).current_indent = w.current_indent) ∧
      ((w.write_line none).current_indent = w.current_indent) ∧
      ((w.write_blanks n).current_indent = w.current_indent) := by
  intro w s n
  have hnl : ("\n" : String).data = ['\n'] := rfl
  refine ⟨?_, ?_, rfl, ?_, ?_, rfl, rfl⟩
  · intro hs _
    simp [PythonWriter.write_line, PythonWriter.indentLine, hs,
      String.data_append, hnl]
  · simp [PythonWriter.write_line, String.data_append, hnl]
  · simp [PythonWriter.write_blanks, String.data_append]
  · by_cases hs : s = "" <;> simp [PythonWriter.write_line, hs]

/-- C10 witness: a writer at indent 4 with pending output. -/
theorem C10_writer_line_behaviour_witness :
    (({ out := "x", indent_size := 4, current_indent := 4 } :
        PythonWriter).write_line (some "hi")).out.data =
      ("x" : String).data ++ List.replicate 4 ' ' ++ ("hi" : String).data ++ ['\n'] ∧
    (({ out := "x", indent_size := 4, current_indent := 4 } :
        PythonWriter).write_blanks 2).out.data =
      ("x" : String).data ++ List.replicate 2 '\n' := by
  constructor
  · have := (C10_writer_line_behaviour
      { out := "x", indent_size := 4, current_indent := 4 } "hi" 2).1
      (by decide) (by decide)
    simpa using this
  · exact (C10_writer_line_behaviour
      { out := "x", indent_size := 4, current_indent := 4 } "hi" 2).2.2.2.1

/-! ## Claim C5 -/

lemma bitPairTexts_no_marker {nbs : List NamedValueEntry}
    (h : ∀ b ∈ nbs, b ≠ NamedValueEntry.extensionMarker) :
    bitPairTexts nbs = .ok (nbs.filterMap namedValuePairText) := by
  induction nbs with
  | nil => rfl
  | cons b rest ih =>
    cases b with
    | extensionMarker =>
      exact absurd rfl (h _ (List.mem_cons_self _ _))
    | namedValue i val =>
      have := ih (fun b hb => h b (List.mem_cons_of_mem _ hb))
      simp [bitPairTexts, this, namedValuePairText, List.filterMap_cons]

/-- C5 (amended), part for component lists: a successful
`inline_component_types` expression pass produces exactly one expression per
non-marker component, in the components' original order. -/
lemma components_filter_marker_forall2 {svc : SemaServices} :
    ∀ {fuel : Nat} {comps : List SemaType} {es : List String},
    genExprAux svc fuel (.inr comps) = .ok (.many es) →
    List.Forall₂ (fun c e => ∃ f, f < fuel ∧ generate_expr svc f c = .ok e)
      (comps.filter (fun c => !c.isExtensionMarker)) es := by
  intro fuel comps
  induction comps generalizing fuel with
  | nil =>
    intro es h
    cases fuel with
    | zero => simp [genExprAux] at h
    | succ fuel =>
      simp only [genExprAux, Except.ok.injEq, GenRes.many.injEq] at h
      subst h
      simp
  | cons c cs ih =>
    intro es h
    cases fuel with
    | zero => simp [genExprAux] at h
    | succ fuel =>
      by_cases hm : c.isExtensionMarker
      · simp only [genExprAux, hm, if_true] at h
        have := ih h
        rw [List.filter_cons_of_neg (by simp [hm])]
        exact this.imp (fun _ _ ⟨f, hf, he⟩ => ⟨f, Nat.lt_succ_of_lt hf, he⟩)
      · simp only [genExprAux, hm, if_false] at h
        cases h1 : genExprAux svc fuel (.inl c) with
        | error msg => rw [h1] at h; simp at h
        | ok r =>
          rw [h1] at h
          cases r with
          | many l => simp [GenRes.asOne] at h
          | one e0 =>
            simp only [exceptOkBind, GenRes.asOne] at h
            cases h2 : genExprAux svc fuel (.inr cs) with
            | error msg => rw [h2] at h; simp at h
            | ok r2 =>
              rw [h2] at h
              cases r2 with
              | one e1 => simp [GenRes.asMany] at h
              | many rest =>
                simp [GenRes.asMany] at h
                subst h
                rw [List.filter_cons_of_pos (by simp [hm])]
                refine List.Forall₂.cons ⟨fuel, Nat.lt_succ_self fuel, ?_⟩
                  ((ih h2).imp (fun _ _ ⟨f, hf, he⟩ =>
                    ⟨f, Nat.lt_succ_of_lt hf, he⟩))
                rw [generate_expr, h1]
                rfl

/-- C5 (amended): the value-list definition depends only on the marker-
filtered `(name, value)` pairs (and whether the source list was empty), so
extension markers are dropped and order is kept; component lists filter
markers and keep all other components in order; but bit-string named bits
are *not* filtered — when no marker is present the output coincides with
the filtering emitter, and a present marker is an error (see the
counterexample). -/
theorem C5_named_entries_emission :
    (∀ (cls tn tn' : String) (nvs nvs' : List NamedValueEntry) (c : Option Constraint),
      nvs.filterMap namedValuePairText = nvs'.filterMap namedValuePairText →
      nvs.isEmpty = nvs'.isEmpty →
      defn_value_list_type cls (.valueListType tn nvs c) =
        defn_value_list_type cls (.valueListType tn' nvs' c)) ∧
    (∀ (svc : SemaServices) (fuel : Nat) (comps : List SemaType) (es : List String),
      genExprAux svc fuel (.inr comps) = .ok (.many es) →
      List.Forall₂ (fun comp e => ∃ f, f < fuel ∧ generate_expr svc f comp = .ok e)
        (comps.filter (fun comp => !comp.isExtensionMarker)) es) ∧
    (∀ (cls tn tn' : String) (nbs : List NamedValueEntry) (c : Option Constraint),
      (∀ b ∈ nbs, b ≠ NamedValueEntry.extensionMarker) →
      defn_bitstring_type cls (.bitStringType tn nbs c) =
        defn_value_list_type cls (.valueListType tn' nbs c)) := by
  refine ⟨?_, ?_, ?_⟩
  · intro cls tn tn' nvs nvs' c hf he
    simp only [defn_value_list_type, hf, he]
  · intro svc fuel comps es h
    exact components_filter_marker_forall2 h
  · intro cls tn tn' nbs c h
    simp only [defn_bitstring_type, defn_value_list_type,
      bitPairTexts_no_marker h, exceptOkBind]

/-- C5 counterexample: a marker among named bits is not dropped — the
bit-string definition generator fails on it, while the same list without
the marker renders normally. -/
theorem C5_bitstring_marker_counterexample :
    defn_bitstring_type "Flags" (.bitStringType "BIT STRING"
      [.namedValue "a" "0", .extensionMarker] none) =
      .error "AttributeError: ExtensionMarker has no identifier" ∧
    defn_bitstring_type "Flags" (.bitStringType "BIT STRING"
      [.namedValue "a" "0"] none) =
      .ok "Flags.namedValues = namedval.NamedValues(\n    ('a', 0)\n)\n" := by
  refine ⟨by decide, by decide⟩

/-- C5 witness: a value list with an extension marker among its named
values emits the same text as the marker-free list, and a concrete
component list drops its marker. -/
theorem C5_named_entries_emission_witness :
    defn_value_list_type "Color" (.valueListType "ENUMERATED"
        [.namedValue "red" "0", .extensionMarker, .namedValue "blue" "2"] none) =
      defn_value_list_type "Color" (.valueListType "ENUMERATED"
        [.namedValue "red" "0", .namedValue "blue" "2"] none) ∧
    defn_value_list_type "Color" (.valueListType "ENUMERATED"
        [.namedValue "red" "0", .extensionMarker, .namedValue "blue" "2"] none) =
      .ok "Color.namedValues = namedval.NamedValues(\n    ('red', 0),\n    ('blue', 2)\n)\n" ∧
    List.Forall₂ (fun comp e => ∃ f, f < 5 ∧ generate_expr svcId f comp = .ok e)
      ([SemaType.namedType "foo" (.simpleType "INTEGER" none),
        SemaType.extensionMarker,
        SemaType.namedType "bar" (.simpleType "BOOLEAN" none)].filter
          (fun comp => !comp.isExtensionMarker))
      ["namedtype.NamedType('foo', univ.Integer())",
       "namedtype.NamedType('bar', univ.Boolean())"] ∧
    defn_bitstring_type "Flags" (.bitStringType "BIT STRING"
        [.namedValue "a" "0"] none) =
      defn_value_list_type "Flags" (.valueListType "ENUMERATED"
        [.namedValue "a" "0"] none) := by
  refine ⟨?_, by decide, ?_, ?_⟩
  · exact C5_named_entries_emission.1 "Color" "ENUMERATED" "ENUMERATED"
      _ _ none (by decide) (by decide)
  · exact C5_named_entries_emission.2.1 svcId 5 _ _ (by decide)
  · refine C5_named_entries_emission.2.2 "Flags" "BIT STRING" "ENUMERATED"
      _ none ?_
    intro b hb
    rcases List.mem_cons.mp hb with rfl | hb2
    · decide
    · simp at hb2

/-! ## Claim C1 -/

/-- C1: in the stream `generate_code` emits, components appear in the
dependency-sorted order, and within each component every declaration block
precedes every definition block — no definition text of a component ever
precedes a declaration of the same component. -/
theorem C1_decl_before_defn :
    ∀ (svc : SemaServices) (fuel : Nat) (comps : List (List SemaNode))
      (evs : List EmitEvent),
      generate_code_body svc fuel comps = .ok evs →
      (∀ (p q c i j : Nat) (s t : String),
        evs[p]? = some (.defnBlock c i s) → evs[q]? = some (.declBlock c j t) →
        q < p) ∧
      (∀ (p q c c' : Nat),
        (evs[p]?.bind EmitEvent.comp?) = some c →
        (evs[q]?.bind EmitEvent.comp?) = some c' →
        c < c' → p < q) := by
  intro svc fuel comps evs h
  obtain ⟨hpw, _⟩ := components_events_ordered h
  constructor
  · intro p q c i j s t hp hq
    have hplen : p < evs.length := (List.getElem?_eq_some.mp hp).1
    have hqlen : q < evs.length := (List.getElem?_eq_some.mp hq).1
    have hgp : evs[p] = .defnBlock c i s := by
      have := List.getElem?_eq_getElem hplen
      rw [hp] at this
      injection this with hh
      exact hh.symm
    have hgq : evs[q] = .declBlock c j t := by
      have := List.getElem?_eq_getElem hqlen
      rw [hq] at this
      injection this with hh
      exact hh.symm
    rcases Nat.lt_trichotomy p q with hlt | heq | hgt
    · exfalso
      have hR := (List.pairwise_iff_getElem.mp hpw) p q hplen hqlen hlt
      rw [hgp, hgq] at hR
      exact hR.1 c ⟨i, s, rfl⟩ ⟨j, t, rfl⟩
    · exfalso
      subst heq
      rw [hgp] at hgq
      simp at hgq
    · exact hgt
  · intro p q c c' hp hq hlt
    rcases Option.bind_eq_some.mp hp with ⟨e1, he1, hc1⟩
    rcases Option.bind_eq_some.mp hq with ⟨e2, he2, hc2⟩
    have hplen : p < evs.length := (List.getElem?_eq_some.mp he1).1
    have hqlen : q < evs.length := (List.getElem?_eq_some.mp he2).1
    have hgp : evs[p] = e1 := by
      have := List.getElem?_eq_getElem hplen
      rw [he1] at this
      injection this with hh
      exact hh.symm
    have hgq : evs[q] = e2 := by
      have := List.getElem?_eq_getElem hqlen
      rw [he2] at this
      injection this with hh
      exact hh.symm
    rcases Nat.lt_trichotomy p q with h1 | h1 | h1
    · exact h1
    · exfalso
      subst h1
      rw [hgp] at hgq
      subst hgq
      rw [hc1] at hc2
      injection hc2 with hh
      omega
    · exfalso
      have hR := (List.pairwise_iff_getElem.mp hpw) q p hqlen hplen h1
      rw [hgp, hgq] at hR
      have := hR.2 c' c hc2 hc1
      omega

/-- C1 witness: the two-component module `B ::= INTEGER`,
`A ::= SEQUENCE { b B }`; the declaration of `A` (index 2) precedes its
definition (index 4), and component 0 precedes component 1. -/
theorem C1_decl_before_defn_witness :
    generate_code_body svcId 9
      [[.typeAssignment "B" (.simpleType "INTEGER" none)],
       [.typeAssignment "A" (.sequenceType "SEQUENCE"
          [.namedType "b" (.definedType none "B")])]] =
      .ok [.declBlock 0 0 "class B(univ.Integer):\n    pass\n", .blank 2,
           .declBlock 1 0 "class A(univ.Sequence):\n    pass\n", .blank 2,
           .defnBlock 1 0
             "A.componentType = namedtype.NamedTypes(\n    namedtype.NamedType('b', B())\n)\n",
           .blank 2] ∧
    (2 : Nat) < 4 ∧ (0 : Nat) < 2 := by
  refine ⟨by decide, ?_, ?_⟩
  · exact (C1_decl_before_defn svcId 9
      [[.typeAssignment "B" (.simpleType "INTEGER" none)],
       [.typeAssignment "A" (.sequenceType "SEQUENCE"
          [.namedType "b" (.definedType none "B")])]]
      [.declBlock 0 0 "class B(univ.Integer):\n    pass\n", .blank 2,
           .declBlock 1 0 "class A(univ.Sequence):\n    pass\n", .blank 2,
           .defnBlock 1 0
             "A.componentType = namedtype.NamedTypes(\n    namedtype.NamedType('b', B())\n)\n",
           .blank 2] (by decide)).1
      4 2 1 0 0
      "A.componentType = namedtype.NamedTypes(\n    namedtype.NamedType('b', B())\n)\n"
      "class A(univ.Sequence):\n    pass\n" (by decide) (by decide)
  · exact (C1_decl_before_defn svcId 9
      [[.typeAssignment "B" (.simpleType "INTEGER" none)],
       [.typeAssignment "A" (.sequenceType "SEQUENCE"
          [.namedType "b" (.definedType none "B")])]]
      [.declBlock 0 0 "class B(univ.Integer):\n    pass\n", .blank 2,
           .declBlock 1 0 "class A(univ.Sequence):\n    pass\n", .blank 2,
           .defnBlock 1 0
             "A.componentType = namedtype.NamedTypes(\n    namedtype.NamedType('b', B())\n)\n",
           .blank 2] (by decide)).2
      0 2 0 1 (by decide) (by decide) (by decide)

/-! ## Claim C2 -/

/-- C2: `dependency_sort` is topologically correct — for every reference
edge `u → v` between local assignments (graph nodes), either both ends land
in the same returned component, or the component containing `v` appears at
a strictly smaller index than the component containing `u`. -/
theorem C2_dependency_sort_topological :
    ∀ (n : Nat) (adj : Nat → List Nat),
      (∀ u v, v ∈ adj u → v < n) →
      ∀ u v, u < n → v ∈ adj u →
      ∀ (i j : Nat) (cu cv : List Nat),
        (dependency_sort n adj)[i]? = some cu →
        (dependency_sort n adj)[j]? = some cv →
        u ∈ cu → v ∈ cv → i = j ∨ j < i := by
  intro n adj hadj u v hu hv i j cu cv hcu hcv humem hvmem
  exact dependency_sort_topological n adj hadj u v hu hv i j cu cv hcu hcv humem hvmem

/-- C2 witness: `A ::= ... B ...`, `B ::= ...` — `dependency_sort` returns
`[[B], [A]]` (leaves first), and the theorem places `B`'s component before
`A`'s. -/
theorem C2_dependency_sort_topological_witness :
    dependency_sort 2 (fun u => if u = 0 then [1] else []) = [[1], [0]] ∧
    ((1 : Nat) = 0 ∨ (0 : Nat) < 1) := by
  refine ⟨by decide, ?_⟩
  refine C2_dependency_sort_topological 2 (fun u => if u = 0 then [1] else [])
    ?_ 0 1 (by decide) (by decide) 1 0 [0] [1] (by decide) (by decide)
    (by decide) (by decide)
  intro u v hvmem
  by_cases h0 : u = 0
  · simp [h0] at hvmem
    omega
  · simp [h0] at hvmem

/-! ## Claim C8 -/

/-- C8: in value-range constraint bounds a real literal whose decimal point
is not immediately followed by a digit is rejected — the bound rule
consumes only the integer part — so every input of the form `(a..b)` with
integer endpoints parses as the range between the two integers, not as a
real containing the first dot. -/
theorem C8_value_range_integer_parse :
    ∀ (a b : List Char),
      a ≠ [] → (∀ c ∈ a, c.isDigit = true) →
      b ≠ [] → (∀ c ∈ b, c.isDigit = true) →
      pConstraintRealValue (a ++ ('.' :: '.' :: (b ++ [')']))) =
        some (a, '.' :: '.' :: (b ++ [')'])) ∧
      pValueRangeConstraint ('(' :: (a ++ ('.' :: '.' :: (b ++ [')'])))) =
        some ((a, b), []) := by
  intro a b hane ha hbne hb
  exact value_range_integer_endpoints a b hane ha hbne hb

/-- C8 witness: the spec's example `(1..100)` parses as the range 1 to 100,
with the bound rule leaving the first dot unconsumed. -/
theorem C8_value_range_integer_parse_witness :
    pConstraintRealValue (['1'] ++ ('.' :: '.' :: (['1', '0', '0'] ++ [')']))) =
      some (['1'], '.' :: '.' :: (['1', '0', '0'] ++ [')'])) ∧
    pValueRangeConstraint ('(' :: (['1'] ++ ('.' :: '.' :: (['1', '0', '0'] ++ [')'])))) =
      some ((['1'], ['1', '0', '0']), []) :=
  C8_value_range_integer_parse ['1'] ['1', '0', '0']
    (by decide) (by decide) (by decide) (by decide)

end Asn1ate
